import Mathlib

/-!
Verification of the credit-card statement allocator (`app.py`).

The program manipulates pandas DataFrames.  We embed a DataFrame shallowly as
an ordered association list of named columns (`Df`), each column being a list
of cells.  A cell is either a number (`Cell.num`) or a raw textual value
(`Cell.txt s v`), where `v : Option ℚ` records what `pd.to_numeric` yields for
the text `s` (`none` when the text does not parse as a number, in which case
`errors='coerce'` produces NaN and the subsequent `fillna(0)` produces `0`).
Monetary values are modelled as rationals.

Two facts about the source are used when choosing which branches to embed:
`pd.to_numeric(..., errors='coerce')` does not raise on ordinary CSV columns,
so the `except` fallback branches of `process_credit_card_data` (app.py lines
80-83, 100-101) and `validate_allocations` (lines 236-237) are unreachable;
the embedding follows the `try` path and keeps the reachable `if` tests.
-/

inductive Cell where
  | num (q : ℚ)
  | txt (s : String) (v : Option ℚ)
deriving DecidableEq

/-- A DataFrame: ordered list of columns, each a name with its list of cells. -/
abbrev Df := List (String × List Cell)

/-- Column names of a frame, in order (pandas `df.columns.tolist()`). -/
def colNames (df : Df) : List String := df.map Prod.fst

/-- Cells of the column called `name` (empty when absent).  Models `df[name]`. -/
def getColD : Df → String → List Cell
  | [], _ => []
  | c :: rest, name => if c.1 = name then c.2 else getColD rest name

/-- `df[name] = vals`: replace the column in place when present, else append. -/
def setCol : Df → String → List Cell → Df
  | [], name, vals => [(name, vals)]
  | c :: rest, name, vals =>
      if c.1 = name then (name, vals) :: rest else c :: setCol rest name vals

/-- Number of rows (`len(df)`): the length of the first column. -/
def nRows (df : Df) : ℕ :=
  match df with
  | [] => 0
  | c :: _ => c.2.length

/-- Position of a name in a column list (`columns.index(name)`, 0-based). -/
def colIndex : List String → String → ℕ
  | [], _ => 0
  | c :: rest, name => if c = name then 0 else colIndex rest name + 1

/-- The six fixed entities (app.py lines 16-23). -/
def ENTITIES : List String :=
  ["Panola Holdings LLC", "Robert Dow (Personal)", "RLV22 LLC",
   "CSD Van Zandt LLC", "Goodfire Realty LLC", "NDRE III LLC"]

/-- All column names the processing step writes to. -/
def NEW_COLS : List String :=
  ENTITIES ++ ["Total_Allocated", "Allocation_Check", "Allocation_Status", "Property"]

/-- Numeric reading of a cell; applied only to columns that hold numbers. -/
def cellNum : Cell → ℚ
  | .num q => q
  | .txt _ _ => 0

/-- `pd.to_numeric(c, errors='coerce').fillna(0)` on one cell. -/
def coerceCell : Cell → Cell
  | .num q => .num q
  | .txt _ v => .num (v.getD 0)

def coerceList (l : List Cell) : List Cell := l.map coerceCell

/-- Element-wise addition of two numeric columns. -/
def addCell (a b : Cell) : Cell := .num (cellNum a + cellNum b)

/-- Element-wise subtraction of two numeric columns. -/
def subCell (a b : Cell) : Cell := .num (cellNum a - cellNum b)

/-- The balance tolerance `0.01` used throughout the program. -/
def EPS : ℚ := 1 / 100

/-- Decimal formatting of a rational to two places, as Python's `f"{x:.2f}"`
formats the exactly representable currency values the program handles. -/
def fmt2 (x : ℚ) : String :=
  let cents : ℤ := round (x * 100)
  let sign := if cents < 0 then "-" else ""
  let a := cents.natAbs
  sign ++ toString (a / 100) ++ "." ++ (if a % 100 < 10 then "0" else "") ++ toString (a % 100)

/-- The status string of app.py lines 105-107. -/
def allocation_status (x : ℚ) : String :=
  if |x| < EPS then "Balanced" else "Off by $" ++ fmt2 x

/-- App.py lines 52-54: coerce the amount column to numeric, NaN becoming `0`. -/
def coerceAmount (df : Df) (amount_column : String) : Df :=
  setCol df amount_column (coerceList (getColD df amount_column))

/-- App.py lines 58-60: add the six entity columns, initialised to `0.0`. -/
def addEntities (df : Df) : Df :=
  ENTITIES.foldl (fun d e => setCol d e (List.replicate (nRows d) (Cell.num 0))) df

/-- The working frame after amount coercion and entity-column creation; its
column list is what app.py line 63 captures as `columns`. -/
def augmented (df : Df) (amount_column : String) : Df :=
  addEntities (coerceAmount df amount_column)

def augCols (df : Df) (amount_column : String) : List String :=
  colNames (augmented df amount_column)

/-- `columns[3]`, the 4th column of the augmented frame ("column D"). -/
def colD (df : Df) (amount_column : String) : String :=
  (augCols df amount_column).getD 3 ""

/-- `columns[4]`, the 5th column of the augmented frame ("column E"). -/
def colE (df : Df) (amount_column : String) : String :=
  (augCols df amount_column).getD 4 ""

/-- App.py lines 71-76: coerce columns D and E in place, then set the default
entity to their row-wise sum. -/
def panolaStep (df : Df) (d e : String) : Df :=
  let pa := setCol df d (coerceList (getColD df d))
  let pb := setCol pa e (coerceList (getColD pa e))
  setCol pb "Panola Holdings LLC"
    (List.zipWith addCell (getColD pb d) (getColD pb e))

/-- App.py lines 66-87: the positional branch when the (augmented) frame has at
least 6 columns, else the amount-column fallback. -/
def stage3 (df : Df) (amount_column : String) : Df :=
  if 6 ≤ (augCols df amount_column).length then
    panolaStep (augmented df amount_column) (colD df amount_column) (colE df amount_column)
  else
    setCol (augmented df amount_column) "Panola Holdings LLC"
      (getColD (augmented df amount_column) amount_column)

/-- App.py line 90: `processed_df[ENTITIES].sum(axis=1)`. -/
def totalAllocatedCol (df : Df) : List Cell :=
  ENTITIES.foldl (fun acc e => List.zipWith addCell acc (getColD df e))
    (List.replicate (nRows df) (Cell.num 0))

def stage4 (df : Df) (amount_column : String) : Df :=
  setCol (stage3 df amount_column) "Total_Allocated"
    (totalAllocatedCol (stage3 df amount_column))

/-- App.py lines 96-99: `(d_values + e_values) - Total_Allocated`, where D and
E are re-read (and re-coerced) from the current frame. -/
def checkColTrue (df : Df) (d e : String) : List Cell :=
  List.zipWith subCell
    (List.zipWith addCell (coerceList (getColD df d)) (coerceList (getColD df e)))
    (getColD df "Total_Allocated")

def stage5 (df : Df) (amount_column : String) : Df :=
  setCol (stage4 df amount_column) "Allocation_Check"
    (if 6 ≤ (augCols df amount_column).length then
      checkColTrue (stage4 df amount_column) (colD df amount_column) (colE df amount_column)
    else
      List.zipWith subCell (getColD (stage4 df amount_column) amount_column)
        (getColD (stage4 df amount_column) "Total_Allocated"))

def stage6 (df : Df) (amount_column : String) : Df :=
  setCol (stage5 df amount_column) "Allocation_Status"
    ((getColD (stage5 df amount_column) "Allocation_Check").map
      (fun c => Cell.txt (allocation_status (cellNum c)) none))

/-- App.py lines 45-112, `process_credit_card_data`, decomposed into the stages
above; the final step writes the empty `Property` column (line 110). -/
def process_credit_card_data (df : Df) (amount_column : String) : Df :=
  setCol (stage6 df amount_column) "Property"
    (List.replicate (nRows (stage6 df amount_column)) (Cell.txt "" none))

/-- App.py lines 133-139, the letter-building loop of `num_to_excel_col`, as
the list of characters it accumulates (each iteration prepends one letter). -/
def num_to_excel_col_list : ℕ → List Char
  | 0 => []
  | n + 1 => num_to_excel_col_list (n / 26) ++ [Char.ofNat (65 + n % 26)]
decreasing_by exact Nat.lt_succ_of_le (Nat.div_le_self n 26)

def num_to_excel_col_nat (n : ℕ) : String := String.mk (num_to_excel_col_list n)

/-- `num_to_excel_col` on Python ints: the loop body runs only while `n > 0`,
so non-positive arguments yield the empty string. -/
def num_to_excel_col (n : ℤ) : String :=
  if n ≤ 0 then "" else num_to_excel_col_nat n.toNat

/-- Modelled from the spec: the bijective base-26 transform as §4.4 words it —
"repeatedly take `(n-1) mod 26` as the next letter from the right, then
`n = (n-1) div 26`, until `n` reaches 0" (letter 0 = 'A', code 65). -/
def num_to_letter_spec : ℕ → List Char
  | 0 => []
  | n + 1 => num_to_letter_spec ((n + 1 - 1) / 26) ++ [Char.ofNat (65 + (n + 1 - 1) % 26)]
decreasing_by exact Nat.lt_succ_of_le (Nat.div_le_self n 26)

/-- Modelled from the spec: the inverse `letter_to_num` of the round-trip
property in §8 (A=1, ..., Z=26, base 26, most significant letter first). -/
def letter_to_num (s : String) : ℕ :=
  s.data.foldl (fun acc c => acc * 26 + (c.toNat - 64)) 0

/-- `columns.index(name) + 1`, the 1-based (Excel) column number. -/
def idx1 (columns : List String) (name : String) : ℕ := colIndex columns name + 1

/-- The totals-row cell for the column called `name` sitting at 0-based
position `j`, following app.py lines 173-204: the dict is first filled with
`""` for every column, then overwritten for the first column, the amount
column, the entities, and the four computed columns — so a later write wins,
which the nested conditional mirrors in reverse order of the writes. -/
def totalsCellFor (columns : List String) (amount_column : String) (n : ℕ)
    (j : ℕ) (name : String) : Cell :=
  let lastRow := toString (n + 1)
  let ta := num_to_excel_col_nat (idx1 columns "Total_Allocated")
  let ac := num_to_excel_col_nat (idx1 columns "Allocation_Check")
  let pr := num_to_excel_col_nat (idx1 columns "Property")
  if name = "Property" then
    Cell.txt ("=COUNTIF(" ++ pr ++ "2:" ++ pr ++ lastRow ++ ",\"Required\")&\" Required\"") none
  else if name = "Allocation_Status" then
    Cell.txt ("=IF(ABS(" ++ ac ++ toString (n + 2) ++ ")<0.01,\"ALL BALANCED\",\"TOTAL OFF by $\"&ROUND("
      ++ ac ++ toString (n + 2) ++ ",2))") none
  else if name = "Allocation_Check" then
    Cell.txt ("=(SUM(D2:D" ++ lastRow ++ ")+SUM(E2:E" ++ lastRow ++ "))-SUM("
      ++ ta ++ "2:" ++ ta ++ lastRow ++ ")") none
  else if name = "Total_Allocated" then
    Cell.txt ("=SUM(" ++ ta ++ "2:" ++ ta ++ lastRow ++ ")") none
  else if name ∈ ENTITIES then
    let le := num_to_excel_col_nat (idx1 columns name)
    Cell.txt ("=SUM(" ++ le ++ "2:" ++ le ++ lastRow ++ ")") none
  else if name = amount_column then
    let la := num_to_excel_col_nat (idx1 columns amount_column)
    Cell.txt ("=SUM(" ++ la ++ "2:" ++ la ++ lastRow ++ ")") none
  else if j = 0 then Cell.txt "TOTALS" none
  else Cell.txt "" none

/-- App.py line 207: append the totals row, one cell per column in order. -/
def appendTotals (columns : List String) (amount_column : String) (n : ℕ) :
    ℕ → Df → Df
  | _, [] => []
  | j, c :: rest =>
      (c.1, c.2 ++ [totalsCellFor columns amount_column n j c.1]) ::
        appendTotals columns amount_column n (j + 1) rest

/-- App.py lines 158-171: replace the four computed columns of every data row
by formula text (spreadsheet row `i + 2`); letters come from `num_to_excel_col`
applied to the actual 1-based column positions (lines 117-150). -/
def excelRows (df : Df) : Df :=
  let columns := colNames df
  let n := nRows df
  let taL := num_to_excel_col_nat (idx1 columns "Total_Allocated")
  let acL := num_to_excel_col_nat (idx1 columns "Allocation_Check")
  let rlL := num_to_excel_col_nat (idx1 columns "RLV22 LLC")
  let startL := num_to_excel_col_nat (idx1 columns "Panola Holdings LLC")
  let endL := num_to_excel_col_nat (idx1 columns "NDRE III LLC")
  let rowFmls (mk : ℕ → String) : List Cell :=
    (List.range n).map (fun i => Cell.txt (mk (i + 2)) none)
  let d1 := setCol df "Total_Allocated"
    (rowFmls (fun r => "=SUM(" ++ startL ++ toString r ++ ":" ++ endL ++ toString r ++ ")"))
  let d2 := setCol d1 "Allocation_Check"
    (rowFmls (fun r => "=(D" ++ toString r ++ "+E" ++ toString r ++ ")-" ++ taL ++ toString r))
  let d3 := setCol d2 "Allocation_Status"
    (rowFmls (fun r => "=IF(ABS(" ++ acL ++ toString r ++ ")<0.01,\"Balanced\",\"Off by $\"&ROUND("
      ++ acL ++ toString r ++ ",2))"))
  setCol d3 "Property"
    (rowFmls (fun r => "=IF(" ++ rlL ++ toString r ++ "<>0,\"Required\",\"\")"))

/-- App.py lines 114-209, `create_excel_with_formulas`: rewrite the data rows'
computed cells as formulas, then append the totals row. -/
def create_excel_with_formulas (df : Df) (amount_column : String) : Df :=
  appendTotals (colNames df) amount_column (nRows df) 0 (excelRows df)

/-- The summary dictionary of `validate_allocations` (app.py lines 211-244). -/
structure ValidationResults where
  unbalanced_count : ℕ
  total_unallocated : ℚ
  entity_totals : List (String × ℚ)
  total_transactions : ℚ
  total_allocated : ℚ
  grand_total_check : ℚ
deriving DecidableEq

/-- `df[name].sum()` for a numeric column. -/
def sumCol (df : Df) (name : String) : ℚ :=
  ((getColD df name).map cellNum).sum

/-- `pd.to_numeric(df[name], errors='coerce').fillna(0).sum()`. -/
def sumColCoerced (df : Df) (name : String) : ℚ :=
  ((getColD df name).map (fun c => cellNum (coerceCell c))).sum

/-- App.py lines 211-244, `validate_allocations`.  The row filter
`df[abs(df['Allocation_Check']) >= 0.01]` is embedded as the filter of the
check column; `total_transactions` re-reads the (possibly positional) source
amount from the frame it is given, exactly as the source does. -/
def validate_allocations (df : Df) (amount_column : String) : ValidationResults :=
  let checks := (getColD df "Allocation_Check").map cellNum
  let unbalanced := checks.filter (fun x => EPS ≤ |x|)
  let columns := colNames df
  let tt :=
    if 6 ≤ columns.length then
      sumColCoerced df (columns.getD 3 "") + sumColCoerced df (columns.getD 4 "")
    else sumCol df amount_column
  let ta := sumCol df "Total_Allocated"
  { unbalanced_count := unbalanced.length
    total_unallocated := unbalanced.sum
    entity_totals := ENTITIES.map (fun e => (e, sumCol df e))
    total_transactions := tt
    total_allocated := ta
    grand_total_check := tt - ta }

/-- App.py line 339: the division-guarded percentage of the grand total. -/
def entity_percentage (entity_total total_amount : ℚ) : ℚ :=
  if total_amount ≠ 0 then entity_total / total_amount * 100 else 0

/-- App.py lines 336-345: per entity, its column total and its percentage of
the grand total `processed_df[amount_column].sum()`. -/
def entity_summary (df : Df) (amount_column : String) : List (String × ℚ × ℚ) :=
  let total_amount := sumCol df amount_column
  ENTITIES.map (fun e => (e, sumCol df e, entity_percentage (sumCol df e) total_amount))

/-- Well-formedness of an uploaded frame: every column has `n` cells, column
names are unique, the chosen amount column exists, and no original column is
named like one of the columns the program adds (a CSV statement export does
not contain the entity or check columns). -/
def goodInput (df : Df) (amount_column : String) (n : ℕ) : Prop :=
  (∀ c ∈ df, c.2.length = n) ∧ (colNames df).Nodup ∧
    amount_column ∈ colNames df ∧ ∀ c ∈ colNames df, c ∉ NEW_COLS

instance (df : Df) (amount_column : String) (n : ℕ) :
    Decidable (goodInput df amount_column n) := by
  unfold goodInput; infer_instance

/-! ### Concrete test frames -/

/-- A well-behaved 5-column statement: one row with debit 70 and refund -30. -/
def dfW : Df :=
  [("Date", [Cell.txt "01/05" none]),
   ("Post", [Cell.txt "01/06" none]),
   ("Desc", [Cell.txt "STORE" none]),
   ("Debit", [Cell.num 70]),
   ("Refund", [Cell.num (-30)])]

/-- A 5-column statement whose 4th and 5th columns are non-numeric text and
whose amount column is the 2nd column, holding 100. -/
def dfC1 : Df :=
  [("Date", [Cell.txt "01/02" none]),
   ("Amount", [Cell.num 100]),
   ("Desc", [Cell.txt "STORE" none]),
   ("Memo", [Cell.txt "foo" none]),
   ("Note", [Cell.txt "bar" none])]

/-- A statement with exactly 4 columns whose 4th column is the amount, 5. -/
def dfC2 : Df :=
  [("Date", [Cell.txt "01/02" none]),
   ("Desc", [Cell.txt "STORE" none]),
   ("Ref", [Cell.txt "r1" none]),
   ("Amount", [Cell.num 5])]

/-- A 3-column statement with amount 42. -/
def df3 : Df :=
  [("Date", [Cell.txt "01/02" none]),
   ("Desc", [Cell.txt "STORE" none]),
   ("Amt", [Cell.num 42])]

/-- A statement whose amount column holds a non-numeric cell. -/
def dfC4 : Df := [("Amount", [Cell.txt "abc" none]), ("B", [Cell.num 1])]

/-- A statement whose amount column sums to zero. -/
def dfZ : Df := [("Amt", [Cell.num 5, Cell.num (-5)])]

/-- A statement whose amount column is the first column. -/
def dfC6 : Df := [("Amount", [Cell.num 5]), ("Desc", [Cell.txt "STORE" none])]

/-! ### Lemmas about the column-letter transform -/

theorem char_toNat_ofNat_letter {r : ℕ} (h : r < 26) :
    (Char.ofNat (65 + r)).toNat = 65 + r := by
  have hv : Nat.isValidChar (65 + r) := Or.inl (by omega)
  simp [Char.ofNat, hv, Char.ofNatAux, Char.toNat, UInt32.toNat, BitVec.toNat_ofNatLt]

theorem char_ofNat_letter_range {r : ℕ} (h : r < 26) :
    'A' ≤ Char.ofNat (65 + r) ∧ Char.ofNat (65 + r) ≤ 'Z' := by
  have hv : Nat.isValidChar (65 + r) := Or.inl (by omega)
  constructor <;>
    simp [Char.ofNat, hv, Char.ofNatAux, Char.le_def, UInt32.le_def,
      BitVec.le_def, BitVec.toNat_ofNatLt]
  · omega

theorem num_to_excel_col_list_eq_spec : ∀ n, num_to_excel_col_list n = num_to_letter_spec n := by
  intro n
  induction n using Nat.strong_induction_on with
  | _ n ih =>
    match n with
    | 0 => simp [num_to_excel_col_list, num_to_letter_spec]
    | m + 1 =>
      rw [num_to_excel_col_list, num_to_letter_spec]
      simp only [Nat.add_sub_cancel]
      rw [ih (m / 26) (Nat.lt_succ_of_le (Nat.div_le_self m 26))]

theorem letter_fold_aux : ∀ n a, List.foldl (fun acc c => acc * 26 + (c.toNat - 64)) a
    (num_to_excel_col_list n) = a * 26 ^ (num_to_excel_col_list n).length + n := by
  intro n
  induction n using Nat.strong_induction_on with
  | _ n ih =>
    match n with
    | 0 => intro a; simp [num_to_excel_col_list]
    | m + 1 =>
      intro a
      rw [num_to_excel_col_list, List.foldl_append, List.length_append,
        ih (m / 26) (Nat.lt_succ_of_le (Nat.div_le_self m 26))]
      simp only [List.foldl_cons, List.foldl_nil, List.length_cons, List.length_nil]
      rw [char_toNat_ofNat_letter (Nat.mod_lt m (by norm_num))]
      have hdm := Nat.div_add_mod m 26
      ring_nf
      omega

theorem letter_roundtrip (n : ℕ) : letter_to_num (num_to_excel_col_nat n) = n := by
  have h := letter_fold_aux n 0
  simpa [letter_to_num, num_to_excel_col_nat] using h

theorem num_to_excel_col_list_chars : ∀ n, ∀ c ∈ num_to_excel_col_list n, 'A' ≤ c ∧ c ≤ 'Z' := by
  intro n
  induction n using Nat.strong_induction_on with
  | _ n ih =>
    match n with
    | 0 => simp [num_to_excel_col_list]
    | m + 1 =>
      intro c hc
      rw [num_to_excel_col_list] at hc
      rcases List.mem_append.mp hc with h | h
      · exact ih (m / 26) (Nat.lt_succ_of_le (Nat.div_le_self m 26)) c h
      · rcases List.mem_singleton.mp h with rfl
        exact char_ofNat_letter_range (Nat.mod_lt m (by norm_num))

theorem num_to_excel_col_list_ne_nil (m : ℕ) : num_to_excel_col_list (m + 1) ≠ [] := by
  rw [num_to_excel_col_list]; simp

/-- Claim C5: `num_to_excel_col` implements the bijective base-26 column-letter
transform: the letter list it builds equals, for every `n`, the reference
definition modelled from the spec's words (`num_to_letter_spec`); the sample
values are 1→"A", 26→"Z", 27→"AA", 52→"AZ", 703→"AAA"; and the spec-modelled
inverse `letter_to_num` round-trips every `n`, so the transform is injective. -/
theorem num_to_excel_col_bijective_base26 :
    (∀ n : ℕ, num_to_excel_col_list n = num_to_letter_spec n) ∧
    num_to_excel_col 1 = "A" ∧ num_to_excel_col 26 = "Z" ∧ num_to_excel_col 27 = "AA" ∧
    num_to_excel_col 52 = "AZ" ∧ num_to_excel_col 703 = "AAA" ∧
    (∀ n : ℕ, letter_to_num (num_to_excel_col_nat n) = n) := by
  refine ⟨num_to_excel_col_list_eq_spec, ?_, ?_, ?_, ?_, ?_, letter_roundtrip⟩ <;>
    simp [num_to_excel_col, num_to_excel_col_nat, num_to_excel_col_list]

/-- Claim C10: `num_to_excel_col` is total (it is a function defined by
well-founded recursion, the measure strictly decreasing under
`n ↦ (n-1)/26`, as the first conjunct records); it returns `""` for every
`n ≤ 0`, and for `n ≥ 1` a non-empty string of uppercase letters A–Z. -/
theorem num_to_excel_col_total :
    (∀ n : ℕ, 1 ≤ n → (n - 1) / 26 < n) ∧
    (∀ z : ℤ, z ≤ 0 → num_to_excel_col z = "") ∧
    (∀ z : ℤ, 1 ≤ z → num_to_excel_col z ≠ "" ∧
      ∀ c ∈ (num_to_excel_col z).data, 'A' ≤ c ∧ c ≤ 'Z') := by
  refine ⟨?_, ?_, ?_⟩
  · intro n hn
    exact Nat.lt_of_le_of_lt (Nat.div_le_self _ _) (by omega)
  · intro z hz
    simp [num_to_excel_col, hz]
  · intro z hz
    have hz' : ¬ z ≤ 0 := by omega
    have hm : ∃ m, z.toNat = m + 1 := ⟨z.toNat - 1, by omega⟩
    rcases hm with ⟨m, hm⟩
    rw [num_to_excel_col, if_neg hz', num_to_excel_col_nat, hm]
    constructor
    · intro hcon
      exact num_to_excel_col_list_ne_nil m (congrArg String.data hcon)
    · exact num_to_excel_col_list_chars (m + 1)

/-- Witness for the claim C10 theorem at concrete inputs. -/
theorem num_to_excel_col_total_w :
    (3 - 1) / 26 < 3 ∧ num_to_excel_col (-7) = "" ∧ num_to_excel_col 28 ≠ "" :=
  ⟨num_to_excel_col_total.1 3 (by norm_num),
   num_to_excel_col_total.2.1 (-7) (by norm_num),
   (num_to_excel_col_total.2.2 28 (by norm_num)).1⟩

/-! ### Basic frame lemmas -/

@[simp] theorem colNames_nil : colNames [] = [] := rfl

@[simp] theorem colNames_cons (c : String × List Cell) (rest : Df) :
    colNames (c :: rest) = c.1 :: colNames rest := rfl

theorem getColD_setCol_self (df : Df) (name : String) (vals : List Cell) :
    getColD (setCol df name vals) name = vals := by
  induction df with
  | nil => simp [setCol, getColD]
  | cons c rest ih =>
    by_cases h : c.1 = name
    · simp [setCol, getColD, h]
    · simp [setCol, getColD, h, ih]

theorem getColD_setCol_ne (df : Df) {c name : String} (h : c ≠ name) (vals : List Cell) :
    getColD (setCol df name vals) c = getColD df c := by
  have hnc : name ≠ c := fun hh => h hh.symm
  induction df with
  | nil => simp [setCol, getColD, hnc]
  | cons x rest ih =>
    by_cases hx : x.1 = name
    · simp [setCol, getColD, hx, hnc]
    · simp only [setCol, if_neg hx, getColD]
      by_cases hc : x.1 = c
      · simp [hc]
      · simp [hc, ih]

theorem colNames_setCol_of_mem {df : Df} {name : String} (h : name ∈ colNames df)
    (vals : List Cell) : colNames (setCol df name vals) = colNames df := by
  induction df with
  | nil => simp at h
  | cons c rest ih =>
    by_cases hx : c.1 = name
    · simp [setCol, hx]
    · have h' : name ∈ colNames rest := by
        rcases List.mem_cons.mp (by simpa using h) with h0 | h0
        · exact absurd h0.symm hx
        · exact h0
      simp [setCol, hx, ih h']

theorem colNames_setCol_of_not_mem {df : Df} {name : String} (h : name ∉ colNames df)
    (vals : List Cell) : colNames (setCol df name vals) = colNames df ++ [name] := by
  induction df with
  | nil => simp [setCol]
  | cons c rest ih =>
    have hx : c.1 ≠ name := fun hc => h (by simp [hc])
    have h' : name ∉ colNames rest := fun hc => h (by simp [hc])
    simp [setCol, hx, ih h']

theorem getColD_of_not_mem {df : Df} {name : String} (h : name ∉ colNames df) :
    getColD df name = [] := by
  induction df with
  | nil => simp [getColD]
  | cons c rest ih =>
    have hx : c.1 ≠ name := fun hc => h (by simp [hc])
    have h' : name ∉ colNames rest := fun hc => h (by simp [hc])
    simp [getColD, hx, ih h']

/-- Every column of `df` has exactly `n` cells. -/
def colsLen (df : Df) (n : ℕ) : Prop := ∀ c ∈ df, c.2.length = n

theorem colsLen_setCol {df : Df} {n : ℕ} (h : colsLen df n) {name : String}
    {vals : List Cell} (hv : vals.length = n) : colsLen (setCol df name vals) n := by
  induction df with
  | nil => intro c hc; simp [setCol] at hc; simp [hc, hv]
  | cons x rest ih =>
    have hx := h x (by simp)
    have hrest : colsLen rest n := fun c hc => h c (by simp [hc])
    intro c hc
    by_cases hn : x.1 = name
    · simp [setCol, hn] at hc
      rcases hc with hc | hc
      · simp [hc, hv]
      · exact hrest c hc
    · simp [setCol, hn] at hc
      rcases hc with hc | hc
      · simp [hc, hx]
      · exact ih hrest c hc

theorem length_getColD {df : Df} {n : ℕ} (h : colsLen df n) {name : String}
    (hm : name ∈ colNames df) : (getColD df name).length = n := by
  induction df with
  | nil => simp at hm
  | cons c rest ih =>
    have hrest : colsLen rest n := fun x hx => h x (by simp [hx])
    by_cases hx : c.1 = name
    · simpa [getColD, hx] using h c (by simp)
    · have hm' : name ∈ colNames rest := by
        rcases List.mem_cons.mp (by simpa using hm) with h0 | h0
        · exact absurd h0.symm hx
        · exact h0
      simp [getColD, hx, ih hrest hm']

theorem nRows_setCol {df : Df} {name : String} {vals : List Cell}
    (hv : vals.length = nRows df) : nRows (setCol df name vals) = nRows df := by
  cases df with
  | nil => simpa [setCol, nRows] using hv
  | cons c rest =>
    by_cases hx : c.1 = name
    · simp [setCol, nRows, hx] at hv ⊢; simp [hv]
    · simp [setCol, nRows, hx]

theorem nRows_eq_of_colsLen {df : Df} {n : ℕ} (h : colsLen df n) (hne : df ≠ []) :
    nRows df = n := by
  cases df with
  | nil => exact absurd rfl hne
  | cons c rest => simpa [nRows] using h c (by simp)

theorem coerceCell_coerceCell (c : Cell) : coerceCell (coerceCell c) = coerceCell c := by
  cases c <;> rfl

theorem coerceList_length (l : List Cell) : (coerceList l).length = l.length := by
  simp [coerceList]

theorem coerceList_coerceList (l : List Cell) : coerceList (coerceList l) = coerceList l := by
  induction l with
  | nil => rfl
  | cons c rest ih =>
    simp only [coerceList, List.map_cons] at ih ⊢
    rw [coerceCell_coerceCell]
    rw [show List.map coerceCell (List.map coerceCell rest) = List.map coerceCell rest from ih]

theorem coerceList_replicate_zero (n : ℕ) :
    coerceList (List.replicate n (Cell.num 0)) = List.replicate n (Cell.num 0) := by
  simp [coerceList, List.map_replicate, coerceCell]

/-! ### The augmented frame -/

theorem colNames_entity_fold : ∀ (es : List String) (df : Df), es.Nodup →
    (∀ e ∈ es, e ∉ colNames df) →
    colNames (es.foldl (fun d e => setCol d e (List.replicate (nRows d) (Cell.num 0))) df)
      = colNames df ++ es := by
  intro es
  induction es with
  | nil => intro df _ _; simp
  | cons e rest ih =>
    intro df hnd hf
    have he : e ∉ colNames df := hf e (by simp)
    have hene := (List.nodup_cons.mp hnd).1
    have hf' : ∀ x ∈ rest,
        x ∉ colNames (setCol df e (List.replicate (nRows df) (Cell.num 0))) := by
      intro x hx
      rw [colNames_setCol_of_not_mem he]
      simp only [List.mem_append, List.mem_singleton]
      rintro (hxm | hxe)
      · exact hf x (by simp [hx]) hxm
      · exact hene (hxe ▸ hx)
    simp only [List.foldl_cons]
    rw [ih _ (List.nodup_cons.mp hnd).2 hf', colNames_setCol_of_not_mem he]
    simp

theorem getColD_entity_fold_of_not_mem : ∀ (es : List String) (df : Df) (name : String),
    name ∉ es →
    getColD (es.foldl (fun d e => setCol d e (List.replicate (nRows d) (Cell.num 0))) df) name
      = getColD df name := by
  intro es
  induction es with
  | nil => intro df name _; rfl
  | cons e rest ih =>
    intro df name hn
    have h1 : name ≠ e := fun hc => hn (by simp [hc])
    have h2 : name ∉ rest := fun hc => hn (by simp [hc])
    simp only [List.foldl_cons]
    rw [ih _ _ h2, getColD_setCol_ne _ h1]

theorem nRows_entity_fold : ∀ (es : List String) (df : Df),
    nRows (es.foldl (fun d e => setCol d e (List.replicate (nRows d) (Cell.num 0))) df)
      = nRows df := by
  intro es
  induction es with
  | nil => intro df; rfl
  | cons e rest ih =>
    intro df
    simp only [List.foldl_cons]
    rw [ih, nRows_setCol (by simp)]

theorem getColD_entity_fold_of_mem : ∀ (es : List String) (df : Df) (name : String),
    es.Nodup → name ∈ es →
    getColD (es.foldl (fun d e => setCol d e (List.replicate (nRows d) (Cell.num 0))) df) name
      = List.replicate (nRows df) (Cell.num 0) := by
  intro es
  induction es with
  | nil => intro df name _ h; simp at h
  | cons e rest ih =>
    intro df name hnd hm
    simp only [List.foldl_cons]
    by_cases he : name = e
    · subst he
      rw [getColD_entity_fold_of_not_mem _ _ _ (List.nodup_cons.mp hnd).1,
        getColD_setCol_self]
    · have hm' : name ∈ rest := by
        rcases List.mem_cons.mp hm with h0 | h0
        · exact absurd h0 he
        · exact h0
      rw [ih _ _ (List.nodup_cons.mp hnd).2 hm', nRows_setCol (by simp)]

theorem colsLen_entity_fold : ∀ (es : List String) (df : Df) (n : ℕ),
    colsLen df n → nRows df = n →
    colsLen (es.foldl (fun d e => setCol d e (List.replicate (nRows d) (Cell.num 0))) df) n := by
  intro es
  induction es with
  | nil => intro df n h _; exact h
  | cons e rest ih =>
    intro df n h hn
    simp only [List.foldl_cons]
    exact ih _ _ (colsLen_setCol h (by simp [hn])) (by rw [nRows_setCol (by simp), hn])

theorem mem_NEW_COLS_of_mem_ENTITIES {e : String} (he : e ∈ ENTITIES) : e ∈ NEW_COLS :=
  List.mem_append_left _ he

theorem goodInput.ne_nil {df : Df} {A : String} {n : ℕ} (h : goodInput df A n) : df ≠ [] := by
  intro hc
  subst hc
  simpa using h.2.2.1

theorem goodInput.nRows_eq {df : Df} {A : String} {n : ℕ} (h : goodInput df A n) :
    nRows df = n :=
  nRows_eq_of_colsLen h.1 h.ne_nil

theorem goodInput.amount_not_entity {df : Df} {A : String} {n : ℕ} (h : goodInput df A n) :
    A ∉ ENTITIES :=
  fun hc => h.2.2.2 A h.2.2.1 (mem_NEW_COLS_of_mem_ENTITIES hc)

theorem goodInput.entities_fresh {df : Df} {A : String} {n : ℕ} (h : goodInput df A n) :
    ∀ e ∈ ENTITIES, e ∉ colNames df :=
  fun e he hc => h.2.2.2 e hc (mem_NEW_COLS_of_mem_ENTITIES he)

theorem colNames_coerceAmount {df : Df} {A : String} {n : ℕ} (h : goodInput df A n) :
    colNames (coerceAmount df A) = colNames df :=
  colNames_setCol_of_mem h.2.2.1 _

theorem colsLen_coerceAmount {df : Df} {A : String} {n : ℕ} (h : goodInput df A n) :
    colsLen (coerceAmount df A) n :=
  colsLen_setCol h.1 (by rw [coerceList_length, length_getColD h.1 h.2.2.1])

theorem nRows_coerceAmount {df : Df} {A : String} {n : ℕ} (h : goodInput df A n) :
    nRows (coerceAmount df A) = n := by
  unfold coerceAmount
  rw [nRows_setCol, h.nRows_eq]
  rw [coerceList_length, length_getColD h.1 h.2.2.1, h.nRows_eq]

theorem augCols_eq {df : Df} {A : String} {n : ℕ} (h : goodInput df A n) :
    augCols df A = colNames df ++ ENTITIES := by
  unfold augCols augmented addEntities
  rw [colNames_entity_fold ENTITIES _ (by decide)
    (by rw [colNames_coerceAmount h]; exact h.entities_fresh),
    colNames_coerceAmount h]

theorem length_augCols {df : Df} {A : String} {n : ℕ} (h : goodInput df A n) :
    (augCols df A).length = (colNames df).length + 6 := by
  rw [augCols_eq h, List.length_append]
  rfl

theorem six_le_augCols {df : Df} {A : String} {n : ℕ} (h : goodInput df A n) :
    6 ≤ (augCols df A).length := by
  rw [length_augCols h]; omega

theorem nRows_augmented {df : Df} {A : String} {n : ℕ} (h : goodInput df A n) :
    nRows (augmented df A) = n := by
  unfold augmented addEntities
  rw [nRows_entity_fold, nRows_coerceAmount h]

theorem colsLen_augmented {df : Df} {A : String} {n : ℕ} (h : goodInput df A n) :
    colsLen (augmented df A) n :=
  colsLen_entity_fold ENTITIES _ n (colsLen_coerceAmount h) (nRows_coerceAmount h)

theorem getColD_augmented_entity {df : Df} {A : String} {n : ℕ} (h : goodInput df A n)
    {e : String} (he : e ∈ ENTITIES) :
    getColD (augmented df A) e = List.replicate n (Cell.num 0) := by
  unfold augmented addEntities
  rw [getColD_entity_fold_of_mem ENTITIES _ _ (by decide) he, nRows_coerceAmount h]

theorem getColD_augmented_amount {df : Df} {A : String} {n : ℕ} (h : goodInput df A n) :
    getColD (augmented df A) A = coerceList (getColD df A) := by
  unfold augmented addEntities
  rw [getColD_entity_fold_of_not_mem ENTITIES _ _ h.amount_not_entity]
  exact getColD_setCol_self _ _ _

theorem getColD_augmented_of_ne {df : Df} {A : String} {n : ℕ} (h : goodInput df A n)
    {c : String} (hce : c ∉ ENTITIES) (hcA : c ≠ A) :
    getColD (augmented df A) c = getColD df c := by
  unfold augmented addEntities
  rw [getColD_entity_fold_of_not_mem ENTITIES _ _ hce]
  exact getColD_setCol_ne _ hcA _

theorem augCols_nodup {df : Df} {A : String} {n : ℕ} (h : goodInput df A n) :
    (augCols df A).Nodup := by
  rw [augCols_eq h]
  refine List.Nodup.append h.2.1 (by decide) ?_
  intro x hx hy
  exact h.2.2.2 x hx (mem_NEW_COLS_of_mem_ENTITIES hy)

/-! ### Columns D and E of the augmented frame -/

theorem colD_mem_augCols {df : Df} {A : String} {n : ℕ} (h : goodInput df A n) :
    colD df A ∈ augCols df A := by
  have h3 : 3 < (augCols df A).length := by rw [length_augCols h]; omega
  rw [colD, List.getD_eq_getElem _ _ h3]
  exact List.getElem_mem h3

theorem colE_mem_augCols {df : Df} {A : String} {n : ℕ} (h : goodInput df A n) :
    colE df A ∈ augCols df A := by
  have h4 : 4 < (augCols df A).length := by rw [length_augCols h]; omega
  rw [colE, List.getD_eq_getElem _ _ h4]
  exact List.getElem_mem h4

theorem colD_ne_colE {df : Df} {A : String} {n : ℕ} (h : goodInput df A n) :
    colD df A ≠ colE df A := by
  have h3 : 3 < (augCols df A).length := by rw [length_augCols h]; omega
  have h4 : 4 < (augCols df A).length := by rw [length_augCols h]; omega
  rw [colD, colE, List.getD_eq_getElem _ _ h3, List.getD_eq_getElem _ _ h4]
  intro hc
  have := ((augCols_nodup h).getElem_inj_iff).mp hc
  omega

theorem colD_of_five_le {df : Df} {A : String} {n : ℕ} (h : goodInput df A n)
    (hk : 5 ≤ (colNames df).length) : colD df A = (colNames df).getD 3 "" := by
  rw [colD, augCols_eq h, List.getD_append _ _ _ _ (by omega)]

theorem colE_of_five_le {df : Df} {A : String} {n : ℕ} (h : goodInput df A n)
    (hk : 5 ≤ (colNames df).length) : colE df A = (colNames df).getD 4 "" := by
  rw [colE, augCols_eq h, List.getD_append _ _ _ _ (by omega)]

theorem colD_mem_orig_of_five_le {df : Df} {A : String} {n : ℕ} (h : goodInput df A n)
    (hk : 5 ≤ (colNames df).length) : colD df A ∈ colNames df := by
  rw [colD_of_five_le h hk, List.getD_eq_getElem _ _ (by omega)]
  exact List.getElem_mem (by omega)

theorem colE_mem_orig_of_five_le {df : Df} {A : String} {n : ℕ} (h : goodInput df A n)
    (hk : 5 ≤ (colNames df).length) : colE df A ∈ colNames df := by
  rw [colE_of_five_le h hk, List.getD_eq_getElem _ _ (by omega)]
  exact List.getElem_mem (by omega)

theorem colD_mem_entities_of_le_three {df : Df} {A : String} {n : ℕ} (h : goodInput df A n)
    (hk : (colNames df).length ≤ 3) : colD df A ∈ ENTITIES := by
  rw [colD, augCols_eq h, List.getD_append_right _ _ _ _ (by omega)]
  have hlt : 3 - (colNames df).length < ENTITIES.length := by
    simp only [ENTITIES, List.length_cons, List.length_nil]; omega
  rw [List.getD_eq_getElem _ _ hlt]
  exact List.getElem_mem hlt

theorem colE_mem_entities_of_le_three {df : Df} {A : String} {n : ℕ} (h : goodInput df A n)
    (hk : (colNames df).length ≤ 3) : colE df A ∈ ENTITIES := by
  rw [colE, augCols_eq h, List.getD_append_right _ _ _ _ (by omega)]
  have hlt : 4 - (colNames df).length < ENTITIES.length := by
    simp only [ENTITIES, List.length_cons, List.length_nil]; omega
  rw [List.getD_eq_getElem _ _ hlt]
  exact List.getElem_mem hlt

/-! ### Element-wise column arithmetic -/

theorem zipWith_addCell_replicate_zero : ∀ n : ℕ,
    List.zipWith addCell (List.replicate n (Cell.num 0)) (List.replicate n (Cell.num 0))
      = List.replicate n (Cell.num 0) := by
  intro n
  induction n with
  | zero => rfl
  | succ m ih => simp [List.replicate_succ, addCell, cellNum, ih]

theorem zipWith_addCell_repl_left {l : List Cell} {n : ℕ} (hl : l.length = n)
    (hnum : ∀ c ∈ l, ∃ q, c = Cell.num q) :
    List.zipWith addCell (List.replicate n (Cell.num 0)) l = l := by
  induction l generalizing n with
  | nil => subst hl; rfl
  | cons c rest ih =>
    subst hl
    rcases hnum c (by simp) with ⟨q, rfl⟩
    simp only [List.length_cons, List.replicate_succ, List.zipWith_cons_cons]
    rw [ih rfl (fun x hx => hnum x (by simp [hx]))]
    simp [addCell, cellNum]

theorem zipWith_addCell_repl_right {l : List Cell} {n : ℕ} (hl : l.length = n)
    (hnum : ∀ c ∈ l, ∃ q, c = Cell.num q) :
    List.zipWith addCell l (List.replicate n (Cell.num 0)) = l := by
  induction l generalizing n with
  | nil => subst hl; rfl
  | cons c rest ih =>
    subst hl
    rcases hnum c (by simp) with ⟨q, rfl⟩
    simp only [List.length_cons, List.replicate_succ, List.zipWith_cons_cons]
    rw [ih rfl (fun x hx => hnum x (by simp [hx]))]
    simp [addCell, cellNum]

theorem zipWith_subCell_self : ∀ l : List Cell,
    List.zipWith subCell l l = List.replicate l.length (Cell.num 0) := by
  intro l
  induction l with
  | nil => rfl
  | cons c rest ih => simp [List.replicate_succ, subCell, ih]

theorem coerceList_allNum (l : List Cell) : ∀ c ∈ coerceList l, ∃ q, c = Cell.num q := by
  intro c hc
  rcases List.mem_map.mp hc with ⟨x, _, rfl⟩
  cases x with
  | num q => exact ⟨q, rfl⟩
  | txt s v => exact ⟨v.getD 0, rfl⟩

theorem zipWith_addCell_allNum (a b : List Cell) :
    ∀ c ∈ List.zipWith addCell a b, ∃ q, c = Cell.num q := by
  intro c hc
  rcases List.mem_iff_get.mp hc with ⟨i, hi⟩
  rw [List.get_eq_getElem, List.getElem_zipWith] at hi
  exact ⟨_, hi.symm⟩

theorem allocation_status_zero : allocation_status 0 = "Balanced" := by
  rw [allocation_status, if_pos]
  rw [abs_zero, EPS]
  norm_num

/-! ### Structure of the processing stages -/

theorem stage3_eq {df : Df} {A : String} {n : ℕ} (h : goodInput df A n) :
    stage3 df A = panolaStep (augmented df A) (colD df A) (colE df A) := by
  rw [stage3, if_pos (six_le_augCols h)]

theorem stage5_eq {df : Df} {A : String} {n : ℕ} (h : goodInput df A n) :
    stage5 df A = setCol (stage4 df A) "Allocation_Check"
      (checkColTrue (stage4 df A) (colD df A) (colE df A)) := by
  rw [stage5, if_pos (six_le_augCols h)]

theorem getColD_panolaStep_of_ne {p : Df} {d e c : String} (hcd : c ≠ d) (hce : c ≠ e)
    (hcP : c ≠ "Panola Holdings LLC") :
    getColD (panolaStep p d e) c = getColD p c := by
  simp only [panolaStep]
  rw [getColD_setCol_ne _ hcP, getColD_setCol_ne _ hce, getColD_setCol_ne _ hcd]

theorem getColD_panolaStep_panola {p : Df} {d e : String} (hde : d ≠ e) :
    getColD (panolaStep p d e) "Panola Holdings LLC"
      = List.zipWith addCell (coerceList (getColD p d)) (coerceList (getColD p e)) := by
  simp only [panolaStep]
  rw [getColD_setCol_self, getColD_setCol_ne _ hde, getColD_setCol_self,
    getColD_setCol_self, getColD_setCol_ne _ (Ne.symm hde)]

theorem getColD_panolaStep_d {p : Df} {d e : String} (hde : d ≠ e)
    (hdP : d ≠ "Panola Holdings LLC") :
    getColD (panolaStep p d e) d = coerceList (getColD p d) := by
  simp only [panolaStep]
  rw [getColD_setCol_ne _ hdP, getColD_setCol_ne _ hde, getColD_setCol_self]

theorem getColD_panolaStep_e {p : Df} {d e : String} (hde : d ≠ e)
    (heP : e ≠ "Panola Holdings LLC") :
    getColD (panolaStep p d e) e = coerceList (getColD p e) := by
  simp only [panolaStep]
  rw [getColD_setCol_ne _ heP, getColD_setCol_self, getColD_setCol_ne _ (Ne.symm hde)]

theorem panolaStep_struct {p : Df} {d e : String} {n : ℕ} (hcl : colsLen p n)
    (hn : nRows p = n) (hd : d ∈ colNames p) (he : e ∈ colNames p)
    (hP : "Panola Holdings LLC" ∈ colNames p) :
    colNames (panolaStep p d e) = colNames p ∧ colsLen (panolaStep p d e) n ∧
      nRows (panolaStep p d e) = n := by
  simp only [panolaStep]
  have hlenD : (coerceList (getColD p d)).length = n := by
    rw [coerceList_length, length_getColD hcl hd]
  set pa := setCol p d (coerceList (getColD p d)) with hpa
  have h1n : colNames pa = colNames p := colNames_setCol_of_mem hd _
  have h1c : colsLen pa n := colsLen_setCol hcl hlenD
  have h1r : nRows pa = n := by rw [hpa, nRows_setCol (by rw [hlenD, hn]), hn]
  have he1 : e ∈ colNames pa := h1n ▸ he
  have hd1 : d ∈ colNames pa := h1n ▸ hd
  have hP1 : "Panola Holdings LLC" ∈ colNames pa := h1n ▸ hP
  have hlenE : (coerceList (getColD pa e)).length = n := by
    rw [coerceList_length, length_getColD h1c he1]
  set pb := setCol pa e (coerceList (getColD pa e)) with hpb
  have h2n : colNames pb = colNames p := by
    rw [hpb, colNames_setCol_of_mem he1, h1n]
  have h2c : colsLen pb n := colsLen_setCol h1c hlenE
  have h2r : nRows pb = n := by rw [hpb, nRows_setCol (by rw [hlenE, h1r]), h1r]
  have hd2 : d ∈ colNames pb := by rw [h2n]; exact hd
  have he2 : e ∈ colNames pb := by rw [h2n]; exact he
  have hP2 : "Panola Holdings LLC" ∈ colNames pb := by rw [h2n]; exact hP
  have hzip : (List.zipWith addCell (getColD pb d) (getColD pb e)).length = n := by
    rw [List.length_zipWith, length_getColD h2c hd2, length_getColD h2c he2]
    omega
  refine ⟨?_, ?_, ?_⟩
  · rw [colNames_setCol_of_mem hP2, h2n]
  · exact colsLen_setCol h2c hzip
  · rw [nRows_setCol (by rw [hzip, h2r]), h2r]

theorem panola_mem_augCols {df : Df} {A : String} {n : ℕ} (h : goodInput df A n) :
    "Panola Holdings LLC" ∈ augCols df A := by
  rw [augCols_eq h]
  exact List.mem_append_right _ (by decide)

theorem stage3_struct {df : Df} {A : String} {n : ℕ} (h : goodInput df A n) :
    colNames (stage3 df A) = colNames df ++ ENTITIES ∧ colsLen (stage3 df A) n ∧
      nRows (stage3 df A) = n := by
  rw [stage3_eq h]
  have hs := panolaStep_struct (colsLen_augmented h) (nRows_augmented h)
    (colD_mem_augCols h) (colE_mem_augCols h) (panola_mem_augCols h)
  refine ⟨?_, hs.2.1, hs.2.2⟩
  rw [hs.1]
  exact augCols_eq h

theorem goodInput.not_orig {df : Df} {A : String} {n : ℕ} (h : goodInput df A n)
    {name : String} (hmem : name ∈ NEW_COLS) : name ∉ colNames df :=
  fun hc => h.2.2.2 name hc hmem

theorem totalAllocatedCol_length {p : Df} {n : ℕ} (hcl : colsLen p n) (hn : nRows p = n)
    (hents : ∀ x ∈ ENTITIES, x ∈ colNames p) : (totalAllocatedCol p).length = n := by
  have l0 := length_getColD hcl (hents "Panola Holdings LLC" (by decide))
  have l1 := length_getColD hcl (hents "Robert Dow (Personal)" (by decide))
  have l2 := length_getColD hcl (hents "RLV22 LLC" (by decide))
  have l3 := length_getColD hcl (hents "CSD Van Zandt LLC" (by decide))
  have l4 := length_getColD hcl (hents "Goodfire Realty LLC" (by decide))
  have l5 := length_getColD hcl (hents "NDRE III LLC" (by decide))
  simp only [totalAllocatedCol, ENTITIES, List.foldl_cons, List.foldl_nil,
    List.length_zipWith, List.length_replicate]
  rw [l0, l1, l2, l3, l4, l5, hn]
  omega

theorem checkColTrue_length {p : Df} {d e : String} {n : ℕ} (hcl : colsLen p n)
    (hd : d ∈ colNames p) (he : e ∈ colNames p)
    (hTA : "Total_Allocated" ∈ colNames p) : (checkColTrue p d e).length = n := by
  simp only [checkColTrue, List.length_zipWith, coerceList_length]
  rw [length_getColD hcl hd, length_getColD hcl he, length_getColD hcl hTA]
  omega

theorem stage4_struct {df : Df} {A : String} {n : ℕ} (h : goodInput df A n) :
    colNames (stage4 df A) = (colNames df ++ ENTITIES) ++ ["Total_Allocated"] ∧
      colsLen (stage4 df A) n ∧ nRows (stage4 df A) = n := by
  obtain ⟨h3n, h3c, h3r⟩ := stage3_struct h
  have hents : ∀ x ∈ ENTITIES, x ∈ colNames (stage3 df A) := by
    intro x hx
    rw [h3n]
    exact List.mem_append_right _ hx
  have hta : "Total_Allocated" ∉ colNames (stage3 df A) := by
    rw [h3n]
    simp only [List.mem_append, not_or]
    exact ⟨h.not_orig (by decide), by decide⟩
  have hlen : (totalAllocatedCol (stage3 df A)).length = n :=
    totalAllocatedCol_length h3c h3r hents
  refine ⟨?_, ?_, ?_⟩
  · rw [stage4, colNames_setCol_of_not_mem hta, h3n]
  · exact colsLen_setCol h3c hlen
  · rw [stage4, nRows_setCol (by rw [hlen, h3r]), h3r]

theorem stage5_struct {df : Df} {A : String} {n : ℕ} (h : goodInput df A n) :
    colNames (stage5 df A) = ((colNames df ++ ENTITIES) ++ ["Total_Allocated"])
        ++ ["Allocation_Check"] ∧
      colsLen (stage5 df A) n ∧ nRows (stage5 df A) = n := by
  obtain ⟨h4n, h4c, h4r⟩ := stage4_struct h
  have hd4 : colD df A ∈ colNames (stage4 df A) := by
    rw [h4n]
    exact List.mem_append_left _ ((augCols_eq h) ▸ colD_mem_augCols h)
  have he4 : colE df A ∈ colNames (stage4 df A) := by
    rw [h4n]
    exact List.mem_append_left _ ((augCols_eq h) ▸ colE_mem_augCols h)
  have hta4 : "Total_Allocated" ∈ colNames (stage4 df A) := by
    rw [h4n]
    exact List.mem_append_right _ (by decide)
  have hac : "Allocation_Check" ∉ colNames (stage4 df A) := by
    rw [h4n]
    simp only [List.mem_append, not_or]
    exact ⟨⟨h.not_orig (by decide), by decide⟩, by decide⟩
  have hlen : (checkColTrue (stage4 df A) (colD df A) (colE df A)).length = n :=
    checkColTrue_length h4c hd4 he4 hta4
  refine ⟨?_, ?_, ?_⟩
  · rw [stage5_eq h, colNames_setCol_of_not_mem hac, h4n]
  · rw [stage5_eq h]
    exact colsLen_setCol h4c hlen
  · rw [stage5_eq h, nRows_setCol (by rw [hlen, h4r]), h4r]

theorem stage6_struct {df : Df} {A : String} {n : ℕ} (h : goodInput df A n) :
    colNames (stage6 df A) = (((colNames df ++ ENTITIES) ++ ["Total_Allocated"])
        ++ ["Allocation_Check"]) ++ ["Allocation_Status"] ∧
      colsLen (stage6 df A) n ∧ nRows (stage6 df A) = n := by
  obtain ⟨h5n, h5c, h5r⟩ := stage5_struct h
  have hac5 : "Allocation_Check" ∈ colNames (stage5 df A) := by
    rw [h5n]
    exact List.mem_append_right _ (by decide)
  have has : "Allocation_Status" ∉ colNames (stage5 df A) := by
    rw [h5n]
    simp only [List.mem_append, not_or]
    exact ⟨⟨⟨h.not_orig (by decide), by decide⟩, by decide⟩, by decide⟩
  have hlen : ((getColD (stage5 df A) "Allocation_Check").map
      (fun c => Cell.txt (allocation_status (cellNum c)) none)).length = n := by
    rw [List.length_map, length_getColD h5c hac5]
  refine ⟨?_, ?_, ?_⟩
  · rw [stage6, colNames_setCol_of_not_mem has, h5n]
  · rw [stage6]
    exact colsLen_setCol h5c hlen
  · rw [stage6, nRows_setCol (by rw [hlen, h5r]), h5r]

theorem process_struct {df : Df} {A : String} {n : ℕ} (h : goodInput df A n) :
    colNames (process_credit_card_data df A) = colNames df ++ NEW_COLS ∧
      colsLen (process_credit_card_data df A) n ∧
      nRows (process_credit_card_data df A) = n := by
  obtain ⟨h6n, h6c, h6r⟩ := stage6_struct h
  have hpr : "Property" ∉ colNames (stage6 df A) := by
    rw [h6n]
    simp only [List.mem_append, not_or]
    exact ⟨⟨⟨⟨h.not_orig (by decide), by decide⟩, by decide⟩, by decide⟩, by decide⟩
  have hlen : (List.replicate (nRows (stage6 df A)) (Cell.txt "" none)).length = n := by
    rw [List.length_replicate, h6r]
  refine ⟨?_, ?_, ?_⟩
  · rw [process_credit_card_data, colNames_setCol_of_not_mem hpr, h6n]
    simp [NEW_COLS, ENTITIES, List.append_assoc]
  · exact colsLen_setCol h6c hlen
  · rw [process_credit_card_data, nRows_setCol (by rw [hlen, h6r]), h6r]

/-! ### Reading the final columns -/

theorem getColD_stage4_of_ne {df : Df} {A c : String} (hc : c ≠ "Total_Allocated") :
    getColD (stage4 df A) c = getColD (stage3 df A) c := by
  rw [stage4]
  exact getColD_setCol_ne _ hc _

theorem getColD_stage4_ta (df : Df) (A : String) :
    getColD (stage4 df A) "Total_Allocated" = totalAllocatedCol (stage3 df A) := by
  rw [stage4]
  exact getColD_setCol_self _ _ _

theorem getColD_stage5_of_ne {df : Df} {A c : String} {n : ℕ} (h : goodInput df A n)
    (hc : c ≠ "Allocation_Check") :
    getColD (stage5 df A) c = getColD (stage4 df A) c := by
  rw [stage5_eq h]
  exact getColD_setCol_ne _ hc _

theorem getColD_stage5_ac {df : Df} {A : String} {n : ℕ} (h : goodInput df A n) :
    getColD (stage5 df A) "Allocation_Check"
      = checkColTrue (stage4 df A) (colD df A) (colE df A) := by
  rw [stage5_eq h]
  exact getColD_setCol_self _ _ _

theorem getColD_stage6_of_ne {df : Df} {A c : String} (hc : c ≠ "Allocation_Status") :
    getColD (stage6 df A) c = getColD (stage5 df A) c := by
  rw [stage6]
  exact getColD_setCol_ne _ hc _

theorem getColD_stage6_status (df : Df) (A : String) :
    getColD (stage6 df A) "Allocation_Status"
      = (getColD (stage5 df A) "Allocation_Check").map
          (fun c => Cell.txt (allocation_status (cellNum c)) none) := by
  rw [stage6]
  exact getColD_setCol_self _ _ _

theorem getColD_process_of_ne {df : Df} {A c : String} (hc : c ≠ "Property") :
    getColD (process_credit_card_data df A) c = getColD (stage6 df A) c := by
  rw [process_credit_card_data]
  exact getColD_setCol_ne _ hc _

theorem getColD_process_property {df : Df} {A : String} {n : ℕ} (h : goodInput df A n) :
    getColD (process_credit_card_data df A) "Property"
      = List.replicate n (Cell.txt "" none) := by
  rw [process_credit_card_data, getColD_setCol_self, (stage6_struct h).2.2]

theorem getColD_process_check {df : Df} {A : String} {n : ℕ} (h : goodInput df A n) :
    getColD (process_credit_card_data df A) "Allocation_Check"
      = checkColTrue (stage4 df A) (colD df A) (colE df A) := by
  rw [getColD_process_of_ne (by decide), getColD_stage6_of_ne (by decide),
    getColD_stage5_ac h]

theorem getColD_process_status {df : Df} {A : String} {n : ℕ} (h : goodInput df A n) :
    getColD (process_credit_card_data df A) "Allocation_Status"
      = (checkColTrue (stage4 df A) (colD df A) (colE df A)).map
          (fun c => Cell.txt (allocation_status (cellNum c)) none) := by
  rw [getColD_process_of_ne (by decide), getColD_stage6_status, getColD_stage5_ac h]

/-! ### Values of the computed columns -/

theorem goodInput.orig_ne_new {df : Df} {A : String} {n : ℕ} (h : goodInput df A n)
    {c x : String} (hc : c ∈ colNames df) (hm : x ∈ NEW_COLS) : c ≠ x :=
  fun hcx => h.2.2.2 c hc (hcx ▸ hm)

theorem coerce_getColD_augmented {df : Df} {A : String} {n : ℕ} (h : goodInput df A n)
    {c : String} (hc : c ∈ colNames df) :
    coerceList (getColD (augmented df A) c) = coerceList (getColD df c) := by
  by_cases hcA : c = A
  · subst hcA
    rw [getColD_augmented_amount h, coerceList_coerceList]
  · rw [getColD_augmented_of_ne h (fun hm => h.entities_fresh c hm hc) hcA]

theorem totalAllocatedCol_zero {p : Df} {n : ℕ} (hn : nRows p = n)
    (hp : ∀ x ∈ ENTITIES, getColD p x = List.replicate n (Cell.num 0)) :
    totalAllocatedCol p = List.replicate n (Cell.num 0) := by
  simp only [totalAllocatedCol, ENTITIES, List.foldl_cons, List.foldl_nil]
  rw [hn, hp "Panola Holdings LLC" (by decide), hp "Robert Dow (Personal)" (by decide),
    hp "RLV22 LLC" (by decide), hp "CSD Van Zandt LLC" (by decide),
    hp "Goodfire Realty LLC" (by decide), hp "NDRE III LLC" (by decide)]
  simp only [zipWith_addCell_replicate_zero]

theorem totalAllocatedCol_single {p : Df} {n : ℕ} {P0 : List Cell} (hn : nRows p = n)
    (hP : getColD p "Panola Holdings LLC" = P0) (hlen : P0.length = n)
    (hnum : ∀ c ∈ P0, ∃ q, c = Cell.num q)
    (hrest : ∀ x ∈ ENTITIES, x ≠ "Panola Holdings LLC" →
      getColD p x = List.replicate n (Cell.num 0)) :
    totalAllocatedCol p = P0 := by
  simp only [totalAllocatedCol, ENTITIES, List.foldl_cons, List.foldl_nil]
  rw [hn, hP, hrest "Robert Dow (Personal)" (by decide) (by decide),
    hrest "RLV22 LLC" (by decide) (by decide),
    hrest "CSD Van Zandt LLC" (by decide) (by decide),
    hrest "Goodfire Realty LLC" (by decide) (by decide),
    hrest "NDRE III LLC" (by decide) (by decide),
    zipWith_addCell_repl_left hlen hnum,
    zipWith_addCell_repl_right hlen hnum, zipWith_addCell_repl_right hlen hnum,
    zipWith_addCell_repl_right hlen hnum, zipWith_addCell_repl_right hlen hnum,
    zipWith_addCell_repl_right hlen hnum]

theorem panolaStep_entities_zero {q : Df} {d e : String} {n : ℕ}
    (hq : ∀ x ∈ ENTITIES, getColD q x = List.replicate n (Cell.num 0))
    (hd : d ∈ ENTITIES) (he : e ∈ ENTITIES) :
    ∀ x ∈ ENTITIES, getColD (panolaStep q d e) x = List.replicate n (Cell.num 0) := by
  have hpa : ∀ y ∈ ENTITIES, getColD (setCol q d (coerceList (getColD q d))) y
      = List.replicate n (Cell.num 0) := by
    intro y hy
    by_cases hyd : y = d
    · subst hyd
      rw [getColD_setCol_self, hq y hy, coerceList_replicate_zero]
    · rw [getColD_setCol_ne _ hyd]
      exact hq y hy
  intro x hx
  simp only [panolaStep]
  set pa := setCol q d (coerceList (getColD q d)) with hpadef
  have hpb : ∀ y ∈ ENTITIES, getColD (setCol pa e (coerceList (getColD pa e))) y
      = List.replicate n (Cell.num 0) := by
    intro y hy
    by_cases hye : y = e
    · subst hye
      rw [getColD_setCol_self, hpa y hy, coerceList_replicate_zero]
    · rw [getColD_setCol_ne _ hye]
      exact hpa y hy
  set pb := setCol pa e (coerceList (getColD pa e)) with hpbdef
  by_cases hxP : x = "Panola Holdings LLC"
  · subst hxP
    rw [getColD_setCol_self, hpb d hd, hpb e he, zipWith_addCell_replicate_zero]
  · rw [getColD_setCol_ne _ hxP]
    exact hpb x hx

theorem stage3_entities_zero_of_le_three {df : Df} {A : String} {n : ℕ}
    (h : goodInput df A n) (hk : (colNames df).length ≤ 3) :
    ∀ x ∈ ENTITIES, getColD (stage3 df A) x = List.replicate n (Cell.num 0) := by
  rw [stage3_eq h]
  exact panolaStep_entities_zero (fun x hx => getColD_augmented_entity h hx)
    (colD_mem_entities_of_le_three h hk) (colE_mem_entities_of_le_three h hk)

theorem entity_ne_ta : ∀ x ∈ ENTITIES, x ≠ "Total_Allocated" := by decide

theorem check_zero_of_le_three {df : Df} {A : String} {n : ℕ} (h : goodInput df A n)
    (hk : (colNames df).length ≤ 3) :
    checkColTrue (stage4 df A) (colD df A) (colE df A) = List.replicate n (Cell.num 0) := by
  have hz := stage3_entities_zero_of_le_three h hk
  have hd := colD_mem_entities_of_le_three h hk
  have he := colE_mem_entities_of_le_three h hk
  rw [checkColTrue, getColD_stage4_of_ne (entity_ne_ta _ hd),
    getColD_stage4_of_ne (entity_ne_ta _ he), getColD_stage4_ta,
    hz _ hd, hz _ he, coerceList_replicate_zero, zipWith_addCell_replicate_zero,
    totalAllocatedCol_zero (stage3_struct h).2.2 hz, zipWith_subCell_self,
    List.length_replicate]

theorem stage3_panola_of_five_le {df : Df} {A : String} {n : ℕ} (h : goodInput df A n)
    (hk : 5 ≤ (colNames df).length) :
    getColD (stage3 df A) "Panola Holdings LLC"
      = List.zipWith addCell (coerceList (getColD df (colD df A)))
          (coerceList (getColD df (colE df A))) := by
  rw [stage3_eq h, getColD_panolaStep_panola (colD_ne_colE h),
    coerce_getColD_augmented h (colD_mem_orig_of_five_le h hk),
    coerce_getColD_augmented h (colE_mem_orig_of_five_le h hk)]

theorem stage3_other_entities_of_five_le {df : Df} {A : String} {n : ℕ}
    (h : goodInput df A n) (hk : 5 ≤ (colNames df).length) :
    ∀ x ∈ ENTITIES, x ≠ "Panola Holdings LLC" →
      getColD (stage3 df A) x = List.replicate n (Cell.num 0) := by
  intro x hx hxP
  have hxd : x ≠ colD df A :=
    fun hc => h.entities_fresh x hx (hc ▸ colD_mem_orig_of_five_le h hk)
  have hxe : x ≠ colE df A :=
    fun hc => h.entities_fresh x hx (hc ▸ colE_mem_orig_of_five_le h hk)
  rw [stage3_eq h, getColD_panolaStep_of_ne hxd hxe hxP, getColD_augmented_entity h hx]

theorem stage3_d_of_five_le {df : Df} {A : String} {n : ℕ} (h : goodInput df A n)
    (hk : 5 ≤ (colNames df).length) :
    getColD (stage3 df A) (colD df A) = coerceList (getColD df (colD df A)) := by
  rw [stage3_eq h,
    getColD_panolaStep_d (colD_ne_colE h)
      (h.orig_ne_new (colD_mem_orig_of_five_le h hk) (by decide)),
    coerce_getColD_augmented h (colD_mem_orig_of_five_le h hk)]

theorem stage3_e_of_five_le {df : Df} {A : String} {n : ℕ} (h : goodInput df A n)
    (hk : 5 ≤ (colNames df).length) :
    getColD (stage3 df A) (colE df A) = coerceList (getColD df (colE df A)) := by
  rw [stage3_eq h,
    getColD_panolaStep_e (colD_ne_colE h)
      (h.orig_ne_new (colE_mem_orig_of_five_le h hk) (by decide)),
    coerce_getColD_augmented h (colE_mem_orig_of_five_le h hk)]

theorem panola_len_of_five_le {df : Df} {A : String} {n : ℕ} (h : goodInput df A n)
    (hk : 5 ≤ (colNames df).length) :
    (List.zipWith addCell (coerceList (getColD df (colD df A)))
      (coerceList (getColD df (colE df A)))).length = n := by
  rw [List.length_zipWith, coerceList_length, coerceList_length,
    length_getColD h.1 (colD_mem_orig_of_five_le h hk),
    length_getColD h.1 (colE_mem_orig_of_five_le h hk)]
  omega

theorem ta_of_five_le {df : Df} {A : String} {n : ℕ} (h : goodInput df A n)
    (hk : 5 ≤ (colNames df).length) :
    totalAllocatedCol (stage3 df A)
      = List.zipWith addCell (coerceList (getColD df (colD df A)))
          (coerceList (getColD df (colE df A))) :=
  totalAllocatedCol_single (stage3_struct h).2.2 (stage3_panola_of_five_le h hk)
    (panola_len_of_five_le h hk) (zipWith_addCell_allNum _ _)
    (stage3_other_entities_of_five_le h hk)

theorem check_zero_of_five_le {df : Df} {A : String} {n : ℕ} (h : goodInput df A n)
    (hk : 5 ≤ (colNames df).length) :
    checkColTrue (stage4 df A) (colD df A) (colE df A) = List.replicate n (Cell.num 0) := by
  have hdTA : colD df A ≠ "Total_Allocated" :=
    h.orig_ne_new (colD_mem_orig_of_five_le h hk) (by decide)
  have heTA : colE df A ≠ "Total_Allocated" :=
    h.orig_ne_new (colE_mem_orig_of_five_le h hk) (by decide)
  rw [checkColTrue, getColD_stage4_of_ne hdTA, getColD_stage4_of_ne heTA,
    getColD_stage4_ta, stage3_d_of_five_le h hk, stage3_e_of_five_le h hk,
    coerceList_coerceList, coerceList_coerceList, ta_of_five_le h hk,
    zipWith_subCell_self, panola_len_of_five_le h hk]

theorem check_zero_of_ne_four {df : Df} {A : String} {n : ℕ} (h : goodInput df A n)
    (hk : (colNames df).length ≠ 4) :
    checkColTrue (stage4 df A) (colD df A) (colE df A) = List.replicate n (Cell.num 0) := by
  rcases Nat.lt_or_ge (colNames df).length 4 with hlt | hge
  · exact check_zero_of_le_three h (by omega)
  · exact check_zero_of_five_le h (by omega)

theorem status_of_check_zero {df : Df} {A : String} {n : ℕ} (h : goodInput df A n)
    (hc : checkColTrue (stage4 df A) (colD df A) (colE df A)
      = List.replicate n (Cell.num 0)) :
    getColD (process_credit_card_data df A) "Allocation_Status"
      = List.replicate n (Cell.txt "Balanced" none) := by
  rw [getColD_process_status h, hc, List.map_replicate]
  rw [show cellNum (Cell.num 0) = 0 from rfl, allocation_status_zero]

theorem getColD_panolaStep_entity_zero {q : Df} {d e x : String} {n : ℕ}
    (hx : getColD q x = List.replicate n (Cell.num 0)) (hxP : x ≠ "Panola Holdings LLC") :
    getColD (panolaStep q d e) x = List.replicate n (Cell.num 0) := by
  simp only [panolaStep]
  rw [getColD_setCol_ne _ hxP]
  set pa := setCol q d (coerceList (getColD q d)) with hpadef
  have hpax : getColD pa x = List.replicate n (Cell.num 0) := by
    rw [hpadef]
    by_cases hxd : x = d
    · subst hxd
      rw [getColD_setCol_self, hx, coerceList_replicate_zero]
    · rw [getColD_setCol_ne _ hxd]
      exact hx
  by_cases hxe : x = e
  · subst hxe
    rw [getColD_setCol_self, hpax, coerceList_replicate_zero]
  · rw [getColD_setCol_ne _ hxe]
    exact hpax

theorem rlv22_process_zero {df : Df} {A : String} {n : ℕ} (h : goodInput df A n) :
    getColD (process_credit_card_data df A) "RLV22 LLC"
      = List.replicate n (Cell.num 0) := by
  rw [getColD_process_of_ne (by decide), getColD_stage6_of_ne (by decide),
    getColD_stage5_of_ne h (by decide), getColD_stage4_of_ne (by decide), stage3_eq h]
  exact getColD_panolaStep_entity_zero (getColD_augmented_entity h (by decide)) (by decide)

/-! ### Claim theorems: processing -/

/-- Claim C1 (code bug): the spec's positional-pair fallback — with fewer than
6 columns, or non-numeric 4th/5th columns, the default entity should get the
named amount column's value — never happens in the code.  `dfC1` has 5
original columns and non-numeric 4th/5th columns, and its amount column holds
100; the code still takes the positional branch (the column count is taken
after the six entity columns are appended, and `errors='coerce'` never
raises), so the default entity gets 0 ≠ 100, and the row is even reported
Balanced. -/
theorem positional_fallback_never_taken :
    getColD dfC1 "Amount" = [Cell.num 100] ∧
    (colNames dfC1).length < 6 ∧
    getColD (process_credit_card_data dfC1 "Amount") "Panola Holdings LLC" = [Cell.num 0] ∧
    getColD (process_credit_card_data dfC1 "Amount") "Panola Holdings LLC" ≠ [Cell.num 100] ∧
    getColD (process_credit_card_data dfC1 "Amount") "Allocation_Status"
      = [Cell.txt "Balanced" none] :=
  ⟨by with_unfolding_all rfl, by decide, by with_unfolding_all rfl,
    by with_unfolding_all decide, by with_unfolding_all rfl⟩

/-- Claim C2 counterexample: on a well-formed 4-column input whose 4th column
is the amount column holding 5, the processed row has `Allocation_Check = 5`
(not 0) and status "Off by $5.00" (not "Balanced"): after the entity columns
are appended, position 4 is the default entity's own column, so the check
re-reads the freshly written default allocation as "column E". -/
theorem default_balance_counterexample :
    goodInput dfC2 "Amount" 1 ∧
    getColD (process_credit_card_data dfC2 "Amount") "Allocation_Check" ≠ [Cell.num 0] ∧
    getColD (process_credit_card_data dfC2 "Amount") "Allocation_Check" = [Cell.num 5] ∧
    getColD (process_credit_card_data dfC2 "Amount") "Allocation_Status"
      = [Cell.txt "Off by $5.00" none] :=
  ⟨by decide, by with_unfolding_all decide, by with_unfolding_all rfl,
    by with_unfolding_all rfl⟩

/-- Claim C2 (amended): for every well-formed input table whose original
column count is not exactly 4, every processed row has `Allocation_Check = 0`
and `Allocation_Status = "Balanced"`. -/
theorem default_balance_amended (df : Df) (A : String) (n : ℕ) (h : goodInput df A n)
    (hk : (colNames df).length ≠ 4) :
    getColD (process_credit_card_data df A) "Allocation_Check"
      = List.replicate n (Cell.num 0) ∧
    getColD (process_credit_card_data df A) "Allocation_Status"
      = List.replicate n (Cell.txt "Balanced" none) := by
  have hc := check_zero_of_ne_four h hk
  exact ⟨by rw [getColD_process_check h, hc], status_of_check_zero h hc⟩

/-- Witness for the claim C2 amended theorem at a concrete 5-column input. -/
theorem default_balance_amended_w :
    getColD (process_credit_card_data dfW "Debit") "Allocation_Check"
      = List.replicate 1 (Cell.num 0) ∧
    getColD (process_credit_card_data dfW "Debit") "Allocation_Status"
      = List.replicate 1 (Cell.txt "Balanced" none) :=
  default_balance_amended dfW "Debit" 1 (by decide) (by decide)

/-- Claim C3: in the computed (non-formula) table produced by
`process_credit_card_data`, the RLV22 LLC allocation is 0 in every row and the
Property column is the empty string in every row, so for every row the
Property cell carries its "Required" indication iff the RLV22 LLC allocation
is non-zero — both sides being false throughout. -/
theorem property_flag_iff_rlv22 (df : Df) (A : String) (n : ℕ) (h : goodInput df A n) :
    getColD (process_credit_card_data df A) "RLV22 LLC"
      = List.replicate n (Cell.num 0) ∧
    getColD (process_credit_card_data df A) "Property"
      = List.replicate n (Cell.txt "" none) ∧
    ∀ i : ℕ, i < n →
      (((getColD (process_credit_card_data df A) "Property").getD i (Cell.txt "" none)
          = Cell.txt "Required" none) ↔
        cellNum ((getColD (process_credit_card_data df A) "RLV22 LLC").getD i (Cell.num 0))
          ≠ 0) := by
  refine ⟨rlv22_process_zero h, getColD_process_property h, ?_⟩
  intro i hi
  rw [rlv22_process_zero h, getColD_process_property h,
    List.getD_eq_getElem _ _ (by simpa using hi), List.getElem_replicate,
    List.getD_eq_getElem _ _ (by simpa using hi), List.getElem_replicate]
  constructor
  · intro hcon
    exact absurd hcon (by decide)
  · intro hcon
    exact absurd (rfl : cellNum (Cell.num 0) = 0) hcon

/-- Witness for the claim C3 theorem at a concrete input. -/
theorem property_flag_iff_rlv22_w :
    getColD (process_credit_card_data dfW "Debit") "RLV22 LLC"
      = List.replicate 1 (Cell.num 0) ∧
    getColD (process_credit_card_data dfW "Debit") "Property"
      = List.replicate 1 (Cell.txt "" none) :=
  ⟨(property_flag_iff_rlv22 dfW "Debit" 1 (by decide)).1,
   (property_flag_iff_rlv22 dfW "Debit" 1 (by decide)).2.1⟩

/-- Claim C9: the six entity columns are appended before the column list is
captured, so the "at least 6 columns" test is evaluated on the augmented frame
and succeeds for every input; when the uploaded table has fewer than 4
columns, positions 3 and 4 of the augmented frame name entity columns (all
zero), so every row's default-entity allocation, Total_Allocated and
Allocation_Check are 0 and every row is reported Balanced, regardless of the
amount column's values. -/
theorem augmented_test_always_passes (df : Df) (A : String) (n : ℕ)
    (h : goodInput df A n) :
    6 ≤ (augCols df A).length ∧
    ((colNames df).length < 4 →
      colD df A ∈ ENTITIES ∧ colE df A ∈ ENTITIES ∧
      getColD (process_credit_card_data df A) "Panola Holdings LLC"
        = List.replicate n (Cell.num 0) ∧
      getColD (process_credit_card_data df A) "Total_Allocated"
        = List.replicate n (Cell.num 0) ∧
      getColD (process_credit_card_data df A) "Allocation_Check"
        = List.replicate n (Cell.num 0) ∧
      getColD (process_credit_card_data df A) "Allocation_Status"
        = List.replicate n (Cell.txt "Balanced" none)) := by
  refine ⟨six_le_augCols h, ?_⟩
  intro hk4
  have hk : (colNames df).length ≤ 3 := by omega
  have hz := stage3_entities_zero_of_le_three h hk
  have hchk := check_zero_of_le_three h hk
  refine ⟨colD_mem_entities_of_le_three h hk, colE_mem_entities_of_le_three h hk,
    ?_, ?_, ?_, status_of_check_zero h hchk⟩
  · rw [getColD_process_of_ne (by decide), getColD_stage6_of_ne (by decide),
      getColD_stage5_of_ne h (by decide), getColD_stage4_of_ne (by decide)]
    exact hz _ (by decide)
  · rw [getColD_process_of_ne (by decide), getColD_stage6_of_ne (by decide),
      getColD_stage5_of_ne h (by decide), getColD_stage4_ta]
    exact totalAllocatedCol_zero (stage3_struct h).2.2 hz
  · rw [getColD_process_check h, hchk]

/-- Witness for the claim C9 theorem at a concrete 3-column input whose amount
column holds 42. -/
theorem augmented_test_always_passes_w :
    6 ≤ (augCols df3 "Amt").length ∧
    getColD (process_credit_card_data df3 "Amt") "Panola Holdings LLC"
      = List.replicate 1 (Cell.num 0) ∧
    getColD (process_credit_card_data df3 "Amt") "Allocation_Check"
      = List.replicate 1 (Cell.num 0) :=
  ⟨(augmented_test_always_passes df3 "Amt" 1 (by decide)).1,
   ((augmented_test_always_passes df3 "Amt" 1 (by decide)).2 (by decide)).2.2.1,
   ((augmented_test_always_passes df3 "Amt" 1 (by decide)).2 (by decide)).2.2.2.2.1⟩

/-- Claim C4 counterexample: the uploaded frame `dfC4` holds the non-numeric
text "abc" in its amount column; processing rewrites that cell to the number
0, so the pre-existing column is not preserved verbatim. -/
theorem columns_preserved_counterexample :
    goodInput dfC4 "Amount" 1 ∧
    getColD dfC4 "Amount" = [Cell.txt "abc" none] ∧
    getColD (process_credit_card_data dfC4 "Amount") "Amount" = [Cell.num 0] ∧
    getColD (process_credit_card_data dfC4 "Amount") "Amount" ≠ getColD dfC4 "Amount" :=
  ⟨by decide, by with_unfolding_all rfl, by with_unfolding_all rfl,
    by with_unfolding_all decide⟩

/-- Claim C4 (amended): pre-existing columns other than the amount column and
the two positional columns (positions 3 and 4 of the augmented frame) are
preserved verbatim; the amount column and the positional columns, when they
are original columns, are replaced by their numeric coercion (unparsable
cells becoming 0). -/
theorem columns_preserved_amended (df : Df) (A : String) (n : ℕ) (h : goodInput df A n) :
    (∀ c ∈ colNames df, c ≠ A → c ≠ colD df A → c ≠ colE df A →
      getColD (process_credit_card_data df A) c = getColD df c) ∧
    (A ≠ colD df A → A ≠ colE df A →
      getColD (process_credit_card_data df A) A = coerceList (getColD df A)) ∧
    (colD df A ∈ colNames df →
      getColD (process_credit_card_data df A) (colD df A)
        = coerceList (getColD df (colD df A))) ∧
    (colE df A ∈ colNames df →
      getColD (process_credit_card_data df A) (colE df A)
        = coerceList (getColD df (colE df A))) := by
  refine ⟨?_, ?_, ?_, ?_⟩
  · intro c hc hcA hcd hce
    rw [getColD_process_of_ne (h.orig_ne_new hc (by decide)),
      getColD_stage6_of_ne (h.orig_ne_new hc (by decide)),
      getColD_stage5_of_ne h (h.orig_ne_new hc (by decide)),
      getColD_stage4_of_ne (h.orig_ne_new hc (by decide)), stage3_eq h,
      getColD_panolaStep_of_ne hcd hce (h.orig_ne_new hc (by decide)),
      getColD_augmented_of_ne h (fun hm => h.entities_fresh c hm hc) hcA]
  · intro hAd hAe
    have hA := h.2.2.1
    rw [getColD_process_of_ne (h.orig_ne_new hA (by decide)),
      getColD_stage6_of_ne (h.orig_ne_new hA (by decide)),
      getColD_stage5_of_ne h (h.orig_ne_new hA (by decide)),
      getColD_stage4_of_ne (h.orig_ne_new hA (by decide)), stage3_eq h,
      getColD_panolaStep_of_ne hAd hAe (h.orig_ne_new hA (by decide)),
      getColD_augmented_amount h]
  · intro hd
    rw [getColD_process_of_ne (h.orig_ne_new hd (by decide)),
      getColD_stage6_of_ne (h.orig_ne_new hd (by decide)),
      getColD_stage5_of_ne h (h.orig_ne_new hd (by decide)),
      getColD_stage4_of_ne (h.orig_ne_new hd (by decide)), stage3_eq h,
      getColD_panolaStep_d (colD_ne_colE h) (h.orig_ne_new hd (by decide)),
      coerce_getColD_augmented h hd]
  · intro he
    rw [getColD_process_of_ne (h.orig_ne_new he (by decide)),
      getColD_stage6_of_ne (h.orig_ne_new he (by decide)),
      getColD_stage5_of_ne h (h.orig_ne_new he (by decide)),
      getColD_stage4_of_ne (h.orig_ne_new he (by decide)), stage3_eq h,
      getColD_panolaStep_e (colD_ne_colE h) (h.orig_ne_new he (by decide)),
      coerce_getColD_augmented h he]

/-- Witness for the claim C4 amended theorem: on `dfW`, the "Date" column is
preserved, and the positional column D (which on `dfW` is the amount column
"Debit") is its own coercion. -/
theorem columns_preserved_amended_w :
    getColD (process_credit_card_data dfW "Debit") "Date" = getColD dfW "Date" ∧
    getColD (process_credit_card_data dfW "Debit") (colD dfW "Debit")
      = coerceList (getColD dfW (colD dfW "Debit")) :=
  ⟨(columns_preserved_amended dfW "Debit" 1 (by decide)).1 "Date"
      (by decide) (by decide) (by with_unfolding_all decide) (by with_unfolding_all decide),
   (columns_preserved_amended dfW "Debit" 1 (by decide)).2.2.1
      (by with_unfolding_all decide)⟩

/-! ### Claim theorems: validator and summary -/

/-- Claim C8: the per-entity percentage-of-total computation is
division-safe: when the grand total is 0 every entity's percentage is the
rational 0 (no error and, in exact arithmetic, no NaN or infinity), and for a
non-zero total it is `entity_total / total_amount * 100`. -/
theorem entity_percentage_div_safe (df : Df) (A : String) :
    (sumCol df A = 0 →
      (entity_summary df A).map (fun x => x.2.2) = List.replicate 6 0) ∧
    (sumCol df A ≠ 0 →
      (entity_summary df A).map (fun x => x.2.2)
        = ENTITIES.map (fun e => sumCol df e / sumCol df A * 100)) := by
  constructor
  · intro h0
    simp [entity_summary, entity_percentage, h0, ENTITIES]
  · intro h0
    simp [entity_summary, entity_percentage, h0]

/-- Witness for the claim C8 theorem on a frame whose amount column sums to
zero. -/
theorem entity_percentage_div_safe_w :
    (entity_summary dfZ "Amt").map (fun x => x.2.2) = List.replicate 6 0 :=
  (entity_percentage_div_safe dfZ "Amt").1 (by with_unfolding_all decide)

theorem filter_getD_range : ∀ (l : List ℚ) (p : ℚ → Bool) (d : ℚ),
    ((List.range l.length).filter (fun i => p (l.getD i d))).map (fun i => l.getD i d)
      = l.filter p := by
  intro l p d
  induction l with
  | nil => rfl
  | cons a t ih =>
    rw [List.length_cons, List.range_succ_eq_map]
    cases hp : p a with
    | true =>
      rw [List.filter_cons_of_pos (by simp [hp]), List.filter_cons_of_pos (by simp [hp]),
        List.map_cons, List.getD_cons_zero, List.filter_map, List.map_map]
      simp only [Function.comp_def, List.getD_cons_succ]
      rw [ih]
    | false =>
      rw [List.filter_cons_of_neg (by simp [hp]), List.filter_cons_of_neg (by simp [hp]),
        List.filter_map, List.map_map]
      simp only [Function.comp_def, List.getD_cons_succ]
      exact ih

/-- The numeric check column of the processed frame, read row by row. -/
def processedChecks (df : Df) (A : String) : List ℚ :=
  (getColD (process_credit_card_data df A) "Allocation_Check").map cellNum

/-- Claim C7: `validate_allocations` on a processed table computes its summary
as specified with the fixed 0.01 epsilon: `unbalanced_count` is the number of
rows whose check is at least 0.01 in absolute value, `total_unallocated` sums
the check over exactly those rows, `entity_totals` pairs each entity with its
column's sum over all rows, and `grand_total_check` is `total_transactions`
minus `total_allocated`. -/
theorem validator_summary_spec (df : Df) (A : String) (n : ℕ) (h : goodInput df A n) :
    EPS = 1 / 100 ∧
    (processedChecks df A).length = n ∧
    (validate_allocations (process_credit_card_data df A) A).unbalanced_count
      = ((List.range n).filter
          (fun i => EPS ≤ |(processedChecks df A).getD i 0|)).length ∧
    (validate_allocations (process_credit_card_data df A) A).total_unallocated
      = (((List.range n).filter (fun i => EPS ≤ |(processedChecks df A).getD i 0|)).map
          (fun i => (processedChecks df A).getD i 0)).sum ∧
    (validate_allocations (process_credit_card_data df A) A).entity_totals
      = ENTITIES.map (fun e =>
          (e, ((getColD (process_credit_card_data df A) e).map cellNum).sum)) ∧
    (validate_allocations (process_credit_card_data df A) A).grand_total_check
      = (validate_allocations (process_credit_card_data df A) A).total_transactions
        - (validate_allocations (process_credit_card_data df A) A).total_allocated := by
  have hACmem : "Allocation_Check" ∈ colNames (process_credit_card_data df A) := by
    rw [(process_struct h).1]
    exact List.mem_append_right _ (by decide)
  have hlen : (processedChecks df A).length = n := by
    rw [processedChecks, List.length_map, length_getColD (process_struct h).2.1 hACmem]
  have key := filter_getD_range (processedChecks df A) (fun x => decide (EPS ≤ |x|)) 0
  rw [hlen] at key
  have gcount : ∀ p : Df, (validate_allocations p A).unbalanced_count
      = (((getColD p "Allocation_Check").map cellNum).filter
          (fun x => decide (EPS ≤ |x|))).length := fun _ => rfl
  have gsum : ∀ p : Df, (validate_allocations p A).total_unallocated
      = (((getColD p "Allocation_Check").map cellNum).filter
          (fun x => decide (EPS ≤ |x|))).sum := fun _ => rfl
  have gent : ∀ p : Df, (validate_allocations p A).entity_totals
      = ENTITIES.map (fun e => (e, ((getColD p e).map cellNum).sum)) := fun _ => rfl
  have ggrand : ∀ p : Df, (validate_allocations p A).grand_total_check
      = (validate_allocations p A).total_transactions
        - (validate_allocations p A).total_allocated := fun _ => rfl
  have hpc : (getColD (process_credit_card_data df A) "Allocation_Check").map cellNum
      = processedChecks df A := rfl
  refine ⟨rfl, hlen, ?_, ?_, gent _, ggrand _⟩
  · rw [gcount _, hpc]
    have klen := congrArg List.length key
    rw [List.length_map] at klen
    exact klen.symm
  · rw [gsum _, hpc]
    exact (congrArg List.sum key).symm

/-- Witness for the claim C7 theorem at a concrete input. -/
theorem validator_summary_spec_w :
    (validate_allocations (process_credit_card_data dfW "Debit") "Debit").entity_totals
      = ENTITIES.map (fun e =>
          (e, ((getColD (process_credit_card_data dfW "Debit") e).map cellNum).sum)) ∧
    (validate_allocations (process_credit_card_data dfW "Debit") "Debit").unbalanced_count
      = ((List.range 1).filter
          (fun i => EPS ≤ |(processedChecks dfW "Debit").getD i 0|)).length :=
  ⟨(validator_summary_spec dfW "Debit" 1 (by decide)).2.2.2.2.1,
   (validator_summary_spec dfW "Debit" 1 (by decide)).2.2.1⟩

/-! ### The formula projection -/

theorem colIndex_cons_head (a : String) (l : List String) : colIndex (a :: l) a = 0 := by
  simp [colIndex]

theorem colIndex_append_of_not_mem {l : List String} {a : String} (h : a ∉ l)
    (r : List String) : colIndex (l ++ r) a = l.length + colIndex r a := by
  induction l with
  | nil => simp [colIndex]
  | cons x rest ih =>
    have hx : x ≠ a := fun hc => h (by simp [hc])
    have h' : a ∉ rest := fun hc => h (by simp [hc])
    rw [List.cons_append,
      show colIndex (x :: (rest ++ r)) a = colIndex (rest ++ r) a + 1 from by
        simp [colIndex, hx],
      ih h', List.length_cons]
    omega

theorem getColD_appendTotals (cols : List String) (A' : String) (m : ℕ) :
    ∀ (d : Df) (j : ℕ) (name : String), name ∈ colNames d →
    getColD (appendTotals cols A' m j d) name
      = getColD d name
        ++ [totalsCellFor cols A' m (j + colIndex (colNames d) name) name] := by
  intro d
  induction d with
  | nil => intro j name hn; simp at hn
  | cons c rest ih =>
    intro j name hn
    by_cases hc : c.1 = name
    · subst hc
      simp [appendTotals, getColD, colIndex]
    · have hn' : name ∈ colNames rest := by
        rcases List.mem_cons.mp (by simpa using hn) with h0 | h0
        · exact absurd h0.symm hc
        · exact h0
      have harg : j + 1 + colIndex (colNames rest) name
          = j + (colIndex (colNames rest) name + 1) := by omega
      rw [show getColD (appendTotals cols A' m j (c :: rest)) name
            = getColD (appendTotals cols A' m (j + 1) rest) name from by
          simp [appendTotals, getColD, hc],
        ih (j + 1) name hn',
        show getColD (c :: rest) name = getColD rest name from by simp [getColD, hc],
        show colIndex (colNames (c :: rest)) name = colIndex (colNames rest) name + 1 from by
          simp [colIndex, hc, colNames],
        harg]

theorem nRows_appendTotals {cols : List String} {A' : String} {m : ℕ} {d : Df}
    (hd : d ≠ []) (j : ℕ) : nRows (appendTotals cols A' m j d) = nRows d + 1 := by
  cases d with
  | nil => exact absurd rfl hd
  | cons c rest => simp [appendTotals, nRows]

theorem totalsCellFor_ta (cols : List String) (A' : String) (m j : ℕ) :
    totalsCellFor cols A' m j "Total_Allocated"
      = Cell.txt ("=SUM(" ++ num_to_excel_col_nat (idx1 cols "Total_Allocated") ++ "2:"
          ++ num_to_excel_col_nat (idx1 cols "Total_Allocated") ++ toString (m + 1) ++ ")")
          none := by
  simp only [totalsCellFor]
  simp

theorem totalsCellFor_ac (cols : List String) (A' : String) (m j : ℕ) :
    totalsCellFor cols A' m j "Allocation_Check"
      = Cell.txt ("=(SUM(D2:D" ++ toString (m + 1) ++ ")+SUM(E2:E" ++ toString (m + 1)
          ++ "))-SUM(" ++ num_to_excel_col_nat (idx1 cols "Total_Allocated") ++ "2:"
          ++ num_to_excel_col_nat (idx1 cols "Total_Allocated") ++ toString (m + 1) ++ ")")
          none := by
  simp only [totalsCellFor]
  simp

theorem totalsCellFor_first {cols : List String} {A' : String} {m : ℕ} {fc : String}
    (h1 : fc ∉ NEW_COLS) (h6 : fc ≠ A') :
    totalsCellFor cols A' m 0 fc = Cell.txt "TOTALS" none := by
  have hP : fc ≠ "Property" := fun hc => h1 (by rw [hc]; decide)
  have hAS : fc ≠ "Allocation_Status" := fun hc => h1 (by rw [hc]; decide)
  have hAC : fc ≠ "Allocation_Check" := fun hc => h1 (by rw [hc]; decide)
  have hTA : fc ≠ "Total_Allocated" := fun hc => h1 (by rw [hc]; decide)
  have hE : fc ∉ ENTITIES := fun hm => h1 (mem_NEW_COLS_of_mem_ENTITIES hm)
  simp only [totalsCellFor]
  simp [hP, hAS, hAC, hTA, hE, h6]

theorem getColD_excelRows_of_ne {df' : Df} {c : String} (h1 : c ≠ "Total_Allocated")
    (h2 : c ≠ "Allocation_Check") (h3 : c ≠ "Allocation_Status") (h4 : c ≠ "Property") :
    getColD (excelRows df') c = getColD df' c := by
  simp only [excelRows]
  rw [getColD_setCol_ne _ h4, getColD_setCol_ne _ h3, getColD_setCol_ne _ h2,
    getColD_setCol_ne _ h1]

theorem getColD_excelRows_ta (df' : Df) :
    getColD (excelRows df') "Total_Allocated"
      = (List.range (nRows df')).map (fun i => Cell.txt ("=SUM("
          ++ num_to_excel_col_nat (idx1 (colNames df') "Panola Holdings LLC")
          ++ toString (i + 2) ++ ":"
          ++ num_to_excel_col_nat (idx1 (colNames df') "NDRE III LLC")
          ++ toString (i + 2) ++ ")") none) := by
  simp only [excelRows]
  rw [getColD_setCol_ne _ (by decide), getColD_setCol_ne _ (by decide),
    getColD_setCol_ne _ (by decide), getColD_setCol_self]

theorem getColD_excelRows_ac (df' : Df) :
    getColD (excelRows df') "Allocation_Check"
      = (List.range (nRows df')).map (fun i => Cell.txt ("=(D"
          ++ toString (i + 2) ++ "+E" ++ toString (i + 2) ++ ")-"
          ++ num_to_excel_col_nat (idx1 (colNames df') "Total_Allocated")
          ++ toString (i + 2)) none) := by
  simp only [excelRows]
  rw [getColD_setCol_ne _ (by decide), getColD_setCol_ne _ (by decide),
    getColD_setCol_self]

theorem getColD_excelRows_pr (df' : Df) :
    getColD (excelRows df') "Property"
      = (List.range (nRows df')).map (fun i => Cell.txt ("=IF("
          ++ num_to_excel_col_nat (idx1 (colNames df') "RLV22 LLC")
          ++ toString (i + 2) ++ "<>0,\"Required\",\"\")") none) := by
  simp only [excelRows]
  rw [getColD_setCol_self]

theorem colNames_setCol_of_mem' {df : Df} {name : String} (vals : List Cell)
    {N : List String} (hN : colNames df = N) (hm : name ∈ N) :
    colNames (setCol df name vals) = N := by
  subst hN
  exact colNames_setCol_of_mem hm _

theorem nRows_setCol_of_len {df : Df} {name : String} {vals : List Cell} {n : ℕ}
    (hn : nRows df = n) (hv : vals.length = n) : nRows (setCol df name vals) = n := by
  rw [nRows_setCol (by rw [hv, hn]), hn]

theorem nRows_excelRows (df' : Df) : nRows (excelRows df') = nRows df' := by
  simp only [excelRows]
  refine nRows_setCol_of_len (nRows_setCol_of_len (nRows_setCol_of_len
    (nRows_setCol_of_len rfl ?_) ?_) ?_) ?_ <;> simp

theorem colNames_excelRows {df' : Df} (hTA : "Total_Allocated" ∈ colNames df')
    (hAC : "Allocation_Check" ∈ colNames df')
    (hAS : "Allocation_Status" ∈ colNames df')
    (hPR : "Property" ∈ colNames df') :
    colNames (excelRows df') = colNames df' := by
  simp only [excelRows]
  exact colNames_setCol_of_mem' _ (colNames_setCol_of_mem' _ (colNames_setCol_of_mem' _
    (colNames_setCol_of_mem' _ rfl hTA) hAC) hAS) hPR

theorem colsLen_excelRows {df' : Df} {n : ℕ} (hcl : colsLen df' n)
    (hn : nRows df' = n) : colsLen (excelRows df') n := by
  simp only [excelRows]
  refine colsLen_setCol (colsLen_setCol (colsLen_setCol (colsLen_setCol hcl ?_) ?_) ?_) ?_
    <;> simp [hn]

theorem idx1_process {df : Df} {A : String} {n : ℕ} (h : goodInput df A n)
    {x : String} (hmem : x ∈ NEW_COLS) :
    idx1 (colNames (process_credit_card_data df A)) x
      = (colNames df).length + colIndex NEW_COLS x + 1 := by
  rw [(process_struct h).1, idx1, colIndex_append_of_not_mem (h.not_orig hmem)]

/-- The formula-annotated export of a processed upload. -/
def enhancedOf (df : Df) (A : String) : Df :=
  create_excel_with_formulas (process_credit_card_data df A) A

theorem rows_plus_totals_getD (f : ℕ → Cell) (x d : Cell) (m : ℕ) :
    (∀ i : ℕ, i < m → (((List.range m).map f) ++ [x]).getD i d = f i) ∧
    (((List.range m).map f) ++ [x]).getD m d = x := by
  constructor
  · intro i hi
    rw [List.getD_append _ _ _ _ (by simp [hi]), List.getD_eq_getElem _ _ (by simp [hi]),
      List.getElem_map, List.getElem_range]
  · rw [List.getD_append_right _ _ _ _ (by simp), List.length_map, List.length_range,
      Nat.sub_self, List.getD_cons_zero]

theorem getD_last_of_len {l : List Cell} {x d : Cell} {m : ℕ} (hl : l.length = m) :
    (l ++ [x]).getD m d = x := by
  subst hl
  rw [List.getD_append_right _ _ _ _ (le_refl _), Nat.sub_self, List.getD_cons_zero]

theorem data_head_append {a b : String} {ch : Char} (h : a.data.head? = some ch) :
    (a ++ b).data.head? = some ch := by
  rw [String.data_append]
  cases ha : a.data with
  | nil => rw [ha] at h; simp at h
  | cons c t =>
    rw [ha] at h
    simpa using h

theorem ne_totals_of_head_eq {s : String} (h : s.data.head? = some '=') :
    s ≠ "TOTALS" := by
  intro hc
  rw [hc] at h
  exact absurd h (by decide)

theorem totalsCellFor_amount {cols : List String} {A' : String} (m j : ℕ)
    (hnew : A' ∉ NEW_COLS) :
    totalsCellFor cols A' m j A'
      = Cell.txt ("=SUM(" ++ num_to_excel_col_nat (idx1 cols A') ++ "2:"
          ++ num_to_excel_col_nat (idx1 cols A') ++ toString (m + 1) ++ ")") none := by
  have hP : A' ≠ "Property" := fun hc => hnew (by rw [hc]; decide)
  have hAS : A' ≠ "Allocation_Status" := fun hc => hnew (by rw [hc]; decide)
  have hAC : A' ≠ "Allocation_Check" := fun hc => hnew (by rw [hc]; decide)
  have hTA : A' ≠ "Total_Allocated" := fun hc => hnew (by rw [hc]; decide)
  have hE : A' ∉ ENTITIES := fun hm => hnew (mem_NEW_COLS_of_mem_ENTITIES hm)
  simp only [totalsCellFor]
  simp [hP, hAS, hAC, hTA, hE]

theorem totalsCellFor_ne_totals {cols : List String} {A' : String} {m j : ℕ}
    {name : String} (h : name = A' ∨ j ≠ 0) :
    totalsCellFor cols A' m j name ≠ Cell.txt "TOTALS" none := by
  simp only [totalsCellFor]
  split_ifs with h1 h2 h3 h4 h5 h6 h7
  · intro hc
    injection hc with hs hv
    refine absurd hs (ne_totals_of_head_eq ?_)
    repeat apply data_head_append
    decide
  · intro hc
    injection hc with hs hv
    refine absurd hs (ne_totals_of_head_eq ?_)
    repeat apply data_head_append
    decide
  · intro hc
    injection hc with hs hv
    refine absurd hs (ne_totals_of_head_eq ?_)
    repeat apply data_head_append
    decide
  · intro hc
    injection hc with hs hv
    refine absurd hs (ne_totals_of_head_eq ?_)
    repeat apply data_head_append
    decide
  · intro hc
    injection hc with hs hv
    refine absurd hs (ne_totals_of_head_eq ?_)
    repeat apply data_head_append
    decide
  · intro hc
    injection hc with hs hv
    refine absurd hs (ne_totals_of_head_eq ?_)
    repeat apply data_head_append
    decide
  · rcases h with h | h
    · exact absurd h h6
    · exact absurd h7 h
  · intro hc
    injection hc with hs
    exact absurd hs (by decide)

theorem colNames_appendTotals (cols : List String) (A' : String) (m : ℕ) :
    ∀ (d : Df) (j : ℕ), colNames (appendTotals cols A' m j d) = colNames d := by
  intro d
  induction d with
  | nil => intro j; rfl
  | cons c rest ih =>
    intro j
    simp [appendTotals, ih (j + 1)]

/-- The trailing-row cell of any column of the formula export is the
`totalsCellFor` dict entry at that column's position. -/
theorem enhanced_trailing_cell_getD {df : Df} {A : String} {n : ℕ} (h : goodInput df A n)
    {c : String} (hcP : c ∈ colNames (process_credit_card_data df A)) :
    (getColD (enhancedOf df A) c).getD n (Cell.num 0)
      = totalsCellFor (colNames (process_credit_card_data df A)) A
          (nRows (process_credit_card_data df A))
          (colIndex (colNames (excelRows (process_credit_card_data df A))) c) c := by
  obtain ⟨hPn, hPc, hPr⟩ := process_struct h
  have hTAm : "Total_Allocated" ∈ colNames (process_credit_card_data df A) := by
    rw [hPn]; exact List.mem_append_right _ (by decide)
  have hACm : "Allocation_Check" ∈ colNames (process_credit_card_data df A) := by
    rw [hPn]; exact List.mem_append_right _ (by decide)
  have hASm : "Allocation_Status" ∈ colNames (process_credit_card_data df A) := by
    rw [hPn]; exact List.mem_append_right _ (by decide)
  have hPRm : "Property" ∈ colNames (process_credit_card_data df A) := by
    rw [hPn]; exact List.mem_append_right _ (by decide)
  have hexn : colNames (excelRows (process_credit_card_data df A))
      = colNames (process_credit_card_data df A) :=
    colNames_excelRows hTAm hACm hASm hPRm
  have hcx : c ∈ colNames (excelRows (process_credit_card_data df A)) := by
    rw [hexn]; exact hcP
  rw [enhancedOf, create_excel_with_formulas,
    getColD_appendTotals (colNames (process_credit_card_data df A)) A
      (nRows (process_credit_card_data df A)) (excelRows (process_credit_card_data df A))
      0 c hcx, Nat.zero_add]
  exact getD_last_of_len (length_getColD (colsLen_excelRows hPc hPr) hcx)

/-- When the amount column is not the table's first column, the export's
trailing row labels the first column TOTALS (app.py line 183 survives). -/
theorem enhanced_trailing_totals_label {df : Df} {A : String} {n : ℕ}
    (h : goodInput df A n) (hfc : A ≠ (colNames df).getD 0 "") :
    (getColD (enhancedOf df A) ((colNames df).getD 0 "")).getD n (Cell.num 0)
      = Cell.txt "TOTALS" none := by
  obtain ⟨hPn, hPc, hPr⟩ := process_struct h
  obtain ⟨a, t, hat⟩ : ∃ a t, colNames df = a :: t := by
    cases hcn : colNames df with
    | nil =>
      have hmem := h.2.2.1
      rw [hcn] at hmem
      simp at hmem
    | cons a t => exact ⟨a, t, rfl⟩
  have hfc0 : (colNames df).getD 0 "" = a := by rw [hat]; rfl
  have hfcm : (colNames df).getD 0 "" ∈ colNames df := by rw [hfc0, hat]; simp
  have hfcP : (colNames df).getD 0 "" ∈ colNames (process_credit_card_data df A) := by
    rw [hPn]; exact List.mem_append_left _ hfcm
  have hTAm : "Total_Allocated" ∈ colNames (process_credit_card_data df A) := by
    rw [hPn]; exact List.mem_append_right _ (by decide)
  have hACm : "Allocation_Check" ∈ colNames (process_credit_card_data df A) := by
    rw [hPn]; exact List.mem_append_right _ (by decide)
  have hASm : "Allocation_Status" ∈ colNames (process_credit_card_data df A) := by
    rw [hPn]; exact List.mem_append_right _ (by decide)
  have hPRm : "Property" ∈ colNames (process_credit_card_data df A) := by
    rw [hPn]; exact List.mem_append_right _ (by decide)
  have hexn : colNames (excelRows (process_credit_card_data df A))
      = colNames (process_credit_card_data df A) :=
    colNames_excelRows hTAm hACm hASm hPRm
  have hidx : colIndex (colNames (excelRows (process_credit_card_data df A)))
      ((colNames df).getD 0 "") = 0 := by
    rw [hexn, hPn, hfc0, hat, List.cons_append, colIndex_cons_head]
  rw [enhanced_trailing_cell_getD h hfcP, hidx,
    totalsCellFor_first (fun hm => h.2.2.2 _ hfcm hm) (fun hc => hfc hc.symm)]

/-- When the amount column IS the table's first column, its totals formula
(app.py line 186) overwrites the TOTALS label of line 183: the trailing row's
first cell holds the amount-column range sum over column letter A. -/
theorem enhanced_trailing_amount_first {df : Df} {A : String} {n : ℕ}
    (h : goodInput df A n) (hfc : A = (colNames df).getD 0 "") :
    (getColD (enhancedOf df A) A).getD n (Cell.num 0)
      = Cell.txt ("=SUM(" ++ num_to_excel_col_nat 1 ++ "2:"
          ++ num_to_excel_col_nat 1 ++ toString (n + 1) ++ ")") none := by
  obtain ⟨hPn, hPc, hPr⟩ := process_struct h
  obtain ⟨a, t, hat⟩ : ∃ a t, colNames df = a :: t := by
    cases hcn : colNames df with
    | nil =>
      have hmem := h.2.2.1
      rw [hcn] at hmem
      simp at hmem
    | cons a t => exact ⟨a, t, rfl⟩
  have hA0 : A = a := by rw [hfc, hat]; rfl
  have hAP : A ∈ colNames (process_credit_card_data df A) := by
    rw [hPn]; exact List.mem_append_left _ h.2.2.1
  have hidxA : idx1 (colNames (process_credit_card_data df A)) A = 1 := by
    rw [idx1, hPn, hat, hA0, List.cons_append, colIndex_cons_head]
  have hnew : A ∉ NEW_COLS := fun hm => h.2.2.2 A h.2.2.1 hm
  rw [enhanced_trailing_cell_getD h hAP, totalsCellFor_amount _ _ hnew, hidxA, hPr]

/-- For an amount-first table, no cell of the export's trailing row carries
the TOTALS label: every column's dict entry is a formula or the empty
string. -/
theorem enhanced_trailing_no_totals {df : Df} {A : String} {n : ℕ}
    (h : goodInput df A n) (hfc : A = (colNames df).getD 0 "") :
    ∀ c ∈ colNames (enhancedOf df A),
      (getColD (enhancedOf df A) c).getD n (Cell.num 0) ≠ Cell.txt "TOTALS" none := by
  obtain ⟨hPn, hPc, hPr⟩ := process_struct h
  obtain ⟨a, t, hat⟩ : ∃ a t, colNames df = a :: t := by
    cases hcn : colNames df with
    | nil =>
      have hmem := h.2.2.1
      rw [hcn] at hmem
      simp at hmem
    | cons a t => exact ⟨a, t, rfl⟩
  have hA0 : A = a := by rw [hfc, hat]; rfl
  have hTAm : "Total_Allocated" ∈ colNames (process_credit_card_data df A) := by
    rw [hPn]; exact List.mem_append_right _ (by decide)
  have hACm : "Allocation_Check" ∈ colNames (process_credit_card_data df A) := by
    rw [hPn]; exact List.mem_append_right _ (by decide)
  have hASm : "Allocation_Status" ∈ colNames (process_credit_card_data df A) := by
    rw [hPn]; exact List.mem_append_right _ (by decide)
  have hPRm : "Property" ∈ colNames (process_credit_card_data df A) := by
    rw [hPn]; exact List.mem_append_right _ (by decide)
  have hexn : colNames (excelRows (process_credit_card_data df A))
      = colNames (process_credit_card_data df A) :=
    colNames_excelRows hTAm hACm hASm hPRm
  intro c hc
  have hcP : c ∈ colNames (process_credit_card_data df A) := by
    have hEN : colNames (enhancedOf df A)
        = colNames (excelRows (process_credit_card_data df A)) := by
      rw [enhancedOf, create_excel_with_formulas]
      exact colNames_appendTotals _ _ _ _ 0
    rw [hEN, hexn] at hc
    exact hc
  rw [enhanced_trailing_cell_getD h hcP]
  apply totalsCellFor_ne_totals
  by_cases hcA : c = A
  · exact Or.inl hcA
  · right
    intro hzero
    have : colIndex (colNames (excelRows (process_credit_card_data df A))) c
        = colIndex (A :: (t ++ NEW_COLS)) c := by
      rw [hexn, hPn, hat, hA0, List.cons_append]
    rw [this] at hzero
    have hne : A ≠ c := fun hcc => hcA hcc.symm
    rw [show colIndex (A :: (t ++ NEW_COLS)) c = colIndex (t ++ NEW_COLS) c + 1 from by
      simp [colIndex, hne]] at hzero
    omega

/-- Claim C6 (amended): for a processed table with `n` data rows, the formula
export has `n + 1` rows; data row `i` (spreadsheet row `i + 2`) carries a
`Total_Allocated` range-sum over the contiguous entity block (columns `k+1`
to `k+6` for `k` original columns), an `Allocation_Check` formula hard-coding
the positional columns D and E and subtracting the dynamically lettered
total-allocated column (`k+7`), and a `Property` formula testing the RLV22
column (`k+3`); the trailing row carries aggregate formulas, and its first
cell is the TOTALS label exactly when the amount column is not the table's
first column — when it is, the amount column's own range-sum formula
overwrites the label (app.py line 186 overwrites line 183). -/
theorem excel_formulas_spec (df : Df) (A : String) (n : ℕ) (h : goodInput df A n) :
    nRows (enhancedOf df A) = n + 1 ∧
    (∀ i : ℕ, i < n →
      (getColD (enhancedOf df A) "Total_Allocated").getD i (Cell.num 0)
        = Cell.txt ("=SUM(" ++ num_to_excel_col_nat ((colNames df).length + 1)
            ++ toString (i + 2) ++ ":"
            ++ num_to_excel_col_nat ((colNames df).length + 6)
            ++ toString (i + 2) ++ ")") none) ∧
    (∀ i : ℕ, i < n →
      (getColD (enhancedOf df A) "Allocation_Check").getD i (Cell.num 0)
        = Cell.txt ("=(D" ++ toString (i + 2) ++ "+E" ++ toString (i + 2) ++ ")-"
            ++ num_to_excel_col_nat ((colNames df).length + 7)
            ++ toString (i + 2)) none) ∧
    (∀ i : ℕ, i < n →
      (getColD (enhancedOf df A) "Property").getD i (Cell.num 0)
        = Cell.txt ("=IF(" ++ num_to_excel_col_nat ((colNames df).length + 3)
            ++ toString (i + 2) ++ "<>0,\"Required\",\"\")") none) ∧
    (A ≠ (colNames df).getD 0 "" →
      (getColD (enhancedOf df A) ((colNames df).getD 0 "")).getD n (Cell.num 0)
        = Cell.txt "TOTALS" none) ∧
    (A = (colNames df).getD 0 "" →
      (getColD (enhancedOf df A) A).getD n (Cell.num 0)
        = Cell.txt ("=SUM(" ++ num_to_excel_col_nat 1 ++ "2:"
            ++ num_to_excel_col_nat 1 ++ toString (n + 1) ++ ")") none) ∧
    (getColD (enhancedOf df A) "Total_Allocated").getD n (Cell.num 0)
      = Cell.txt ("=SUM(" ++ num_to_excel_col_nat ((colNames df).length + 7) ++ "2:"
          ++ num_to_excel_col_nat ((colNames df).length + 7) ++ toString (n + 1) ++ ")")
          none ∧
    (getColD (enhancedOf df A) "Allocation_Check").getD n (Cell.num 0)
      = Cell.txt ("=(SUM(D2:D" ++ toString (n + 1) ++ ")+SUM(E2:E" ++ toString (n + 1)
          ++ "))-SUM(" ++ num_to_excel_col_nat ((colNames df).length + 7) ++ "2:"
          ++ num_to_excel_col_nat ((colNames df).length + 7) ++ toString (n + 1) ++ ")")
          none := by
  obtain ⟨hPn, hPc, hPr⟩ := process_struct h
  have hTAm : "Total_Allocated" ∈ colNames (process_credit_card_data df A) := by
    rw [hPn]; exact List.mem_append_right _ (by decide)
  have hACm : "Allocation_Check" ∈ colNames (process_credit_card_data df A) := by
    rw [hPn]; exact List.mem_append_right _ (by decide)
  have hASm : "Allocation_Status" ∈ colNames (process_credit_card_data df A) := by
    rw [hPn]; exact List.mem_append_right _ (by decide)
  have hPRm : "Property" ∈ colNames (process_credit_card_data df A) := by
    rw [hPn]; exact List.mem_append_right _ (by decide)
  have hexn : colNames (excelRows (process_credit_card_data df A))
      = colNames (process_credit_card_data df A) :=
    colNames_excelRows hTAm hACm hASm hPRm
  have hTAx : "Total_Allocated" ∈ colNames (excelRows (process_credit_card_data df A)) := by
    rw [hexn]; exact hTAm
  have hACx : "Allocation_Check" ∈ colNames (excelRows (process_credit_card_data df A)) := by
    rw [hexn]; exact hACm
  have hPRx : "Property" ∈ colNames (excelRows (process_credit_card_data df A)) := by
    rw [hexn]; exact hPRm
  have hexr : nRows (excelRows (process_credit_card_data df A)) = n := by
    rw [nRows_excelRows, hPr]
  have hexne : excelRows (process_credit_card_data df A) ≠ [] := by
    intro hcon
    have hcn := congrArg colNames hcon
    rw [hexn, hPn] at hcn
    simp [NEW_COLS, ENTITIES] at hcn
  have hpos1 : idx1 (colNames (process_credit_card_data df A)) "Panola Holdings LLC"
      = (colNames df).length + 1 := by
    rw [idx1_process h (by decide),
      show colIndex NEW_COLS "Panola Holdings LLC" = 0 from by decide]
  have hpos6 : idx1 (colNames (process_credit_card_data df A)) "NDRE III LLC"
      = (colNames df).length + 6 := by
    rw [idx1_process h (by decide),
      show colIndex NEW_COLS "NDRE III LLC" = 5 from by decide]
  have hpos7 : idx1 (colNames (process_credit_card_data df A)) "Total_Allocated"
      = (colNames df).length + 7 := by
    rw [idx1_process h (by decide),
      show colIndex NEW_COLS "Total_Allocated" = 6 from by decide]
  have hpos3 : idx1 (colNames (process_credit_card_data df A)) "RLV22 LLC"
      = (colNames df).length + 3 := by
    rw [idx1_process h (by decide),
      show colIndex NEW_COLS "RLV22 LLC" = 2 from by decide]
  have hgta := getColD_appendTotals (colNames (process_credit_card_data df A)) A
    (nRows (process_credit_card_data df A)) (excelRows (process_credit_card_data df A))
    0 "Total_Allocated" hTAx
  rw [getColD_excelRows_ta, totalsCellFor_ta, hpos1, hpos6, hpos7, hPr] at hgta
  have hgac := getColD_appendTotals (colNames (process_credit_card_data df A)) A
    (nRows (process_credit_card_data df A)) (excelRows (process_credit_card_data df A))
    0 "Allocation_Check" hACx
  rw [getColD_excelRows_ac, totalsCellFor_ac, hpos7, hPr] at hgac
  have hgpr := getColD_appendTotals (colNames (process_credit_card_data df A)) A
    (nRows (process_credit_card_data df A)) (excelRows (process_credit_card_data df A))
    0 "Property" hPRx
  rw [getColD_excelRows_pr, hpos3, hPr] at hgpr
  refine ⟨?_, ?_, ?_, ?_, ?_, ?_, ?_, ?_⟩
  · rw [enhancedOf, create_excel_with_formulas, nRows_appendTotals hexne, hexr]
  · intro i hi
    rw [enhancedOf, create_excel_with_formulas, hPr, hgta]
    exact (rows_plus_totals_getD _ _ _ n).1 i hi
  · intro i hi
    rw [enhancedOf, create_excel_with_formulas, hPr, hgac]
    exact (rows_plus_totals_getD _ _ _ n).1 i hi
  · intro i hi
    rw [enhancedOf, create_excel_with_formulas, hPr, hgpr]
    exact (rows_plus_totals_getD _ _ _ n).1 i hi
  · intro hfc
    exact enhanced_trailing_totals_label h hfc
  · intro hfc
    exact enhanced_trailing_amount_first h hfc
  · rw [enhancedOf, create_excel_with_formulas, hPr, hgta]
    exact (rows_plus_totals_getD _ _ _ n).2
  · rw [enhancedOf, create_excel_with_formulas, hPr, hgac]
    exact (rows_plus_totals_getD _ _ _ n).2

/-- Witness for the claim C6 amended theorem at `dfW` (5 original columns,
1 row, amount column not first): the export has 2 rows, the data row's
Total_Allocated cell sums the entity block (columns 6..11), and the trailing
row is labelled TOTALS. -/
theorem excel_formulas_spec_w :
    nRows (enhancedOf dfW "Debit") = 1 + 1 ∧
    (getColD (enhancedOf dfW "Debit") "Total_Allocated").getD 0 (Cell.num 0)
      = Cell.txt ("=SUM(" ++ num_to_excel_col_nat ((colNames dfW).length + 1)
          ++ toString (0 + 2) ++ ":" ++ num_to_excel_col_nat ((colNames dfW).length + 6)
          ++ toString (0 + 2) ++ ")") none ∧
    (getColD (enhancedOf dfW "Debit") ((colNames dfW).getD 0 "")).getD 1 (Cell.num 0)
      = Cell.txt "TOTALS" none :=
  ⟨(excel_formulas_spec dfW "Debit" 1 (by decide)).1,
   (excel_formulas_spec dfW "Debit" 1 (by decide)).2.1 0 (by decide),
   (excel_formulas_spec dfW "Debit" 1 (by decide)).2.2.2.2.1 (by decide)⟩

/-- Claim C6 counterexample: on the well-formed table `dfC6`, whose amount
column is the table's first column, the export's trailing row carries no
TOTALS label in any column — the first cell holds the amount-column sum
formula "=SUM(A2:A2)" instead, because the amount-column dict write (app.py
line 186) overwrites the TOTALS label of line 183. -/
theorem excel_totals_label_counterexample :
    goodInput dfC6 "Amount" 1 ∧
    "Amount" = (colNames dfC6).getD 0 "" ∧
    (getColD (enhancedOf dfC6 "Amount") "Amount").getD 1 (Cell.num 0)
      = Cell.txt "=SUM(A2:A2)" none ∧
    ((colNames (enhancedOf dfC6 "Amount")).map
        (fun c => (getColD (enhancedOf dfC6 "Amount") c).getD 1 (Cell.num 0))).count
      (Cell.txt "TOTALS" none) = 0 := by
  have hgi : goodInput dfC6 "Amount" 1 := by decide
  have hA0 : "Amount" = (colNames dfC6).getD 0 "" := rfl
  refine ⟨hgi, hA0, ?_, ?_⟩
  · rw [enhanced_trailing_amount_first hgi hA0,
      show num_to_excel_col_nat 1 = "A" from by
        simp [num_to_excel_col_nat, num_to_excel_col_list]]
    rfl
  · rw [List.count_eq_zero]
    intro hmem
    rcases List.mem_map.mp hmem with ⟨c, hc, hfc⟩
    exact enhanced_trailing_no_totals hgi hA0 c hc hfc
